import Mathlib

/-!
# Verification of the ppt-gen core

A shallow embedding of the preflight validation / remediation engine
(`src/validate/preflight.py`), the drift validator (`src/validate/drift.py`)
and the renderer (`src/render/renderer.py`), together with theorems settling
the frozen claims about the natural-language specification.

Python strings are modelled as `List Char`; Python dicts as insertion-ordered
association lists whose update replaces in place (Python 3.7+ dict semantics);
file loading is abstracted as taking the already-loaded data structure.
-/

namespace PptGen

/-- Python strings are modelled as lists of characters. -/
abbrev PyStr := List Char

/-- View a Lean string literal as the Python string model. -/
def pystr (s : String) : PyStr := s.data

/-- `dict.get(k)` on an insertion-ordered dict with unique keys. -/
def dictGet {κ β : Type} [BEq κ] (d : List (κ × β)) (k : κ) : Option β :=
  (d.find? (fun p => p.1 == k)).map (fun p => p.2)

/-- `d[k] = v` on a Python dict: replace in place if present (dicts keep the
original insertion position on overwrite), append otherwise. -/
def dictSet {κ β : Type} [BEq κ] (d : List (κ × β)) (k : κ) (v : β) : List (κ × β) :=
  match d with
  | [] => [(k, v)]
  | (k', v') :: rest => if k' == k then (k, v) :: rest else (k', v') :: dictSet rest k v

/-- `sep.join(parts)`. -/
def joinWith (sep : PyStr) (parts : List PyStr) : PyStr :=
  (List.intersperse sep parts).flatten

/-- Python `str.split()` with no argument: split on whitespace runs,
dropping empty pieces. -/
def pySplit (s : PyStr) : List PyStr :=
  (s.splitOnP (fun c => c.isWhitespace)).filter (fun w => !w.isEmpty)

/-- Python `str.rstrip()`: drop trailing whitespace. -/
def rstrip (s : PyStr) : PyStr :=
  (s.reverse.dropWhile Char.isWhitespace).reverse

/-- Python `text.rfind(" ")`: index of the last space, `-1` when absent. -/
def rfindSpace : PyStr → Int
  | [] => -1
  | c :: rest =>
    let r := rfindSpace rest
    if 0 ≤ r then r + 1
    else if c = ' ' then 0 else -1

/-- Digits of a natural number, as Python renders it. -/
def natChars (n : Nat) : PyStr := (toString n).data

/-- Python rendering of an integer. -/
def intChars (i : Int) : PyStr := (toString i).data

/-- Python rendering of an `Optional[int]` (`None` or the integer). -/
def optIntChars : Option Int → PyStr
  | none => pystr "None"
  | some i => intChars i

/-- `FieldValue = Union[str, List[str]]` (`src/models/deck_ir.py`). -/
inductive FieldValue
  | text (s : PyStr)
  | bullets (items : List PyStr)
deriving DecidableEq, Repr

/-- `_count_chars` (`preflight.py`): total characters in a field value. -/
def count_chars : FieldValue → Nat
  | .text s => s.length
  | .bullets items => (items.map List.length).sum

/-- `_count_bullets` (`preflight.py`): a list counts its items, a string with
non-whitespace content counts as one bullet. -/
def count_bullets : FieldValue → Nat
  | .bullets items => items.length
  | .text s => if s.any (fun c => !c.isWhitespace) then 1 else 0

/-- `_max_words_in_bullet` (`preflight.py`). -/
def max_words_in_bullet : FieldValue → Nat
  | .text s => (pySplit s).length
  | .bullets items => ((items.map (fun b => (pySplit b).length)).max?).getD 0

/-- `_estimate_lines` (`preflight.py`): `ceil(total_chars / avg)` with the
fallback of 50 chars per line; Python's float division agrees with exact
ceiling division on all realistic sizes. -/
def estimate_lines (v : FieldValue) (avg_chars_per_line : Nat) : Nat :=
  let avg := if avg_chars_per_line = 0 then 50 else avg_chars_per_line
  let total := count_chars v
  if total > 0 then (total + avg - 1) / avg else 0

/-- `_truncate_text` (`preflight.py`): truncate to `max_chars`, cutting to
`max_chars - 3`, backing up to the last space when that space sits past 70%
of the shortened budget (the float comparison `last_space > (max_chars-3)*0.7`
is modelled exactly as the rational comparison), then appending an ellipsis. -/
def truncate_text (text : PyStr) (max_chars : Nat) : PyStr :=
  if max_chars = 0 then []
  else if text.length ≤ max_chars then text
  else if max_chars ≤ 3 then text.take max_chars
  else
    let truncated := text.take (max_chars - 3)
    let last_space := rfindSpace truncated
    let truncated :=
      if last_space * 10 > ((max_chars : Int) - 3) * 7 then truncated.take last_space.toNat
      else truncated
    rstrip truncated ++ pystr "..."

/-- `_shorten_bullet` (`preflight.py`): keep the first `max_words` words,
append an ellipsis when any were dropped. -/
def shorten_bullet (bullet : PyStr) (max_words : Nat) : PyStr :=
  let words := pySplit bullet
  if words.length ≤ max_words then bullet
  else joinWith (pystr " ") (words.take max_words) ++ pystr "..."

/-! ## Data model (`src/models`) -/

/-- `ValidationSeverity = Literal["BLOCKING", "WARN"]`. -/
inductive Severity
  | BLOCKING
  | WARN
deriving DecidableEq, Repr

/-- The closed `ViolationType` set (`src/models/validation.py`). -/
inductive ViolationType
  | TITLE_TOO_LONG
  | BODY_TOO_DENSE
  | TOO_MANY_BULLETS
  | WORDS_PER_BULLET
  | TOTAL_BODY_CHARS
  | BODY_LINE_BUDGET
deriving DecidableEq, Repr

/-- `ValidationViolation` (`src/models/validation.py`). -/
structure ValidationViolation where
  slide_id : PyStr
  layout_id : PyStr
  field_key : Option PyStr
  violation_type : ViolationType
  severity : Severity
  recommended_action : Option PyStr
deriving DecidableEq, Repr

/-- `ValidationReport` (`src/models/validation.py`). -/
structure ValidationReport where
  violations : List ValidationViolation
deriving DecidableEq, Repr

/-- The six numeric knobs of a catalog entry's `constraints` JSON object;
`none` models an absent key (callers apply the `.get` defaults). -/
structure Constraints where
  max_title_chars : Option Nat := none
  max_bullets : Option Nat := none
  max_words_per_bullet : Option Nat := none
  max_total_body_chars : Option Nat := none
  body_line_budget : Option Nat := none
  avg_chars_per_line : Option Nat := none
deriving DecidableEq, Repr

/-- One element of a catalog entry's `fields` list, as the drift validator
reads it (`field.get("field_key")`, `field.get("required", False)`). -/
structure FieldSchema where
  field_key : Option PyStr := none
  ftype : Option PyStr := none
  required : Bool := false
deriving DecidableEq, Repr

/-- A layout catalog JSON entry; optional components model `.get` access. -/
structure CatalogEntry where
  layout_id : Option PyStr := none
  master_index : Option Int := none
  layout_index : Option Int := none
  template_layout_name : Option PyStr := none
  fields : List FieldSchema := []
  constraints : Constraints := {}
deriving DecidableEq, Repr

/-- `speaker_notes: Optional[Union[str, Dict[str, Any]]]`; the structured
variant is modelled for string-valued annotation maps, which is what the
serialization code path distinguishes. -/
inductive SpeakerNotes
  | none
  | text (s : PyStr)
  | structured (m : List (PyStr × PyStr))
deriving DecidableEq, Repr

/-- `AssetType = Union[Literal["icon"], Literal["image"]]`. -/
inductive AssetType
  | icon
  | image
deriving DecidableEq, Repr

/-- `AssetRef` (`src/models/deck_ir.py`). -/
structure AssetRef where
  asset_type : AssetType
  asset_id : PyStr
  target_field_key : Option PyStr := Option.none
deriving DecidableEq, Repr

/-- `DeckSlide` (`src/models/deck_ir.py`); `fields` is the insertion-ordered
dict from field key to value, `constraints_override` is an unused reserved
map (modelled as a string map). -/
structure DeckSlide where
  slide_id : PyStr
  layout_id : PyStr
  fields : List (PyStr × FieldValue)
  speaker_notes : SpeakerNotes := .text []
  asset_refs : List AssetRef := []
  constraints_override : Option (List (PyStr × PyStr)) := Option.none
deriving DecidableEq, Repr

/-- `DeckIR` (`src/models/deck_ir.py`); `global_constraints` is an unused
reserved map (modelled as a string map). -/
structure DeckIR where
  deck_id : PyStr
  run_id : PyStr
  template_id : PyStr
  title : PyStr
  subtitle : Option PyStr := Option.none
  global_constraints : List (PyStr × PyStr) := []
  slides : List DeckSlide
deriving DecidableEq, Repr

/-! ## Python serialization helpers used by the notes path -/

/-- `json.dumps` escaping of one character (default `ensure_ascii=True`,
basic multilingual plane). -/
def jsonEscapeChar (c : Char) : PyStr :=
  if c = Char.ofNat 34 then [Char.ofNat 92, Char.ofNat 34]
  else if c = Char.ofNat 92 then [Char.ofNat 92, Char.ofNat 92]
  else if c = Char.ofNat 10 then pystr "\\n"
  else if c = Char.ofNat 13 then pystr "\\r"
  else if c = Char.ofNat 9 then pystr "\\t"
  else if c.toNat < 32 || 127 < c.toNat then
    pystr "\\u" ++ (Nat.toDigits 16 c.toNat).map id |>.reverse.takeD 4 '0' |>.reverse
  else [c]

/-- `json.dumps` of a string (quotes plus escaping). -/
def jsonStr (s : PyStr) : PyStr :=
  [Char.ofNat 34] ++ (s.map jsonEscapeChar).flatten ++ [Char.ofNat 34]

/-- Python `<` on strings: lexicographic comparison by code point. -/
def pyStrLt : PyStr → PyStr → Bool
  | [], [] => false
  | [], _ :: _ => true
  | _ :: _, [] => false
  | a :: xs, b :: ys =>
    if a.toNat < b.toNat then true
    else if b.toNat < a.toNat then false
    else pyStrLt xs ys

/-- `a <= b` on Python strings. -/
def pyStrLe (a b : PyStr) : Bool := !pyStrLt b a

/-- Stable insertion into a sorted list. -/
def insortBy {β : Type} (le : β → β → Bool) (x : β) : List β → List β
  | [] => [x]
  | y :: ys => if le x y then x :: y :: ys else y :: insortBy le x ys

/-- Stable insertion sort (Python `sorted`). -/
def sortBy {β : Type} (le : β → β → Bool) : List β → List β
  | [] => []
  | x :: xs => insortBy le x (sortBy le xs)

/-- `json.dumps(m, sort_keys=True)` for a string-valued map: sorted keys,
entries rendered as quoted pairs joined by a comma and space. -/
def json_dumps_sorted (m : List (PyStr × PyStr)) : PyStr :=
  pystr "\x7b"
    ++ joinWith (pystr ", ")
        ((sortBy (fun p q => pyStrLe p.1 q.1) m).map
          (fun p => jsonStr p.1 ++ pystr ": " ++ jsonStr p.2))
    ++ pystr "\x7d"

/-- Python `repr` of a string: single quotes, switching to double quotes when
the text contains a single quote but no double quote. -/
def pyReprStr (s : PyStr) : PyStr :=
  let sq := Char.ofNat 39
  let dq := Char.ofNat 34
  let useDouble := s.contains sq && !(s.contains dq)
  let q := if useDouble then dq else sq
  let esc := fun (c : Char) =>
    if c = Char.ofNat 92 then [Char.ofNat 92, Char.ofNat 92]
    else if c = q then [Char.ofNat 92, q]
    else if c = Char.ofNat 10 then pystr "\\n"
    else if c = Char.ofNat 13 then pystr "\\r"
    else if c = Char.ofNat 9 then pystr "\\t"
    else [c]
  [q] ++ (s.map esc).flatten ++ [q]

/-- Python `str()` applied to a `FieldValue`: identity on strings, `repr`
form on lists (`str` of a Python list). -/
def pyStrOfValue : FieldValue → PyStr
  | .text s => s
  | .bullets items => pystr "[" ++ joinWith (pystr ", ") (items.map pyReprStr) ++ pystr "]"

/-- `slide.speaker_notes or ""` followed by `json.dumps(..., sort_keys=True)`
when the value is a dict (`_remediate_slide`, preflight.py): `None` and the
empty dict are falsy and become the empty string. -/
def serialize_notes : SpeakerNotes → PyStr
  | .none => []
  | .text s => s
  | .structured m => if m.isEmpty then [] else json_dumps_sorted m

/-! ## Preflight validation (`src/validate/preflight.py`) -/

/-- Keys classified as body/content slots: `k.startswith("ph_body") or
k.startswith("ph_col")` (`_validate_slide`, `_remediate_slide`). -/
def isBodyKey (k : PyStr) : Bool :=
  (pystr "ph_body").isPrefixOf k || (pystr "ph_col").isPrefixOf k

/-- The violations `_validate_slide` emits for one body field. -/
def body_field_violations (slide : DeckSlide) (layout_entry : CatalogEntry)
    (field_key : PyStr) (value : FieldValue) : List ValidationViolation :=
  let c := layout_entry.constraints
  let max_bullets := c.max_bullets.getD 7
  let max_words_per_bullet := c.max_words_per_bullet.getD 18
  let max_total_body_chars := c.max_total_body_chars.getD 500
  let body_line_budget := c.body_line_budget.getD 12
  let avg_chars_per_line := c.avg_chars_per_line.getD 50
  (if 0 < max_bullets ∧ max_bullets < count_bullets value then
    [{ slide_id := slide.slide_id, layout_id := slide.layout_id,
       field_key := some field_key, violation_type := .TOO_MANY_BULLETS,
       severity := .BLOCKING,
       recommended_action := some (pystr "Reduce to " ++ natChars max_bullets
         ++ pystr " bullets or move overflow to notes") }]
   else [])
  ++ (if max_words_per_bullet < max_words_in_bullet value then
    [{ slide_id := slide.slide_id, layout_id := slide.layout_id,
       field_key := some field_key, violation_type := .WORDS_PER_BULLET,
       severity := .WARN,
       recommended_action := some (pystr "Shorten bullets to "
         ++ natChars max_words_per_bullet ++ pystr " words max") }]
   else [])
  ++ (if 0 < max_total_body_chars ∧ max_total_body_chars < count_chars value then
    [{ slide_id := slide.slide_id, layout_id := slide.layout_id,
       field_key := some field_key, violation_type := .TOTAL_BODY_CHARS,
       severity := .BLOCKING,
       recommended_action := some (pystr "Reduce body text to "
         ++ natChars max_total_body_chars ++ pystr " chars") }]
   else [])
  ++ (if 0 < body_line_budget
        ∧ body_line_budget < estimate_lines value avg_chars_per_line then
    [{ slide_id := slide.slide_id, layout_id := slide.layout_id,
       field_key := some field_key, violation_type := .BODY_LINE_BUDGET,
       severity := .WARN,
       recommended_action := some (pystr "Content exceeds line budget ("
         ++ natChars (estimate_lines value avg_chars_per_line) ++ pystr " > "
         ++ natChars body_line_budget ++ pystr ")") }]
   else [])

/-- `_validate_slide` (`preflight.py`): title check plus the four body checks
on every field whose key denotes a body slot, in field order. -/
def validate_slide (slide : DeckSlide) (layout_entry : CatalogEntry) :
    List ValidationViolation :=
  let max_title_chars := layout_entry.constraints.max_title_chars.getD 100
  let titleViolations :=
    match dictGet slide.fields (pystr "ph_title") with
    | some v =>
      if max_title_chars < count_chars v then
        [{ slide_id := slide.slide_id, layout_id := slide.layout_id,
           field_key := some (pystr "ph_title"), violation_type := .TITLE_TOO_LONG,
           severity := .WARN,
           recommended_action := some (pystr "Truncate title to "
             ++ natChars max_title_chars ++ pystr " chars") }]
      else []
    | none => []
  let body_fields := (slide.fields.map (fun p => p.1)).filter isBodyKey
  titleViolations
    ++ (body_fields.map (fun k =>
          body_field_violations slide layout_entry k
            ((dictGet slide.fields k).getD (.text [])))).flatten

/-! ## Remediation (`_remediate_slide`, `preflight.py`) -/

/-- The step-3 `while` loop, with explicit fuel (each iteration pops one
bullet, so `v.length` units suffice and the zero-fuel case is unreachable
from `popLoop`): while the list keeps more than one bullet and still exceeds
the budget, pop the last bullet. -/
def popLoopF (max_total_body_chars : Nat) : Nat → List PyStr → List PyStr × List PyStr
  | 0, v => (v, [])
  | fuel + 1, v =>
    if 1 < v.length ∧ max_total_body_chars < (v.map List.length).sum then
      let r := popLoopF max_total_body_chars fuel v.dropLast
      (r.1, v.getLastD [] :: r.2)
    else (v, [])

/-- The step-3 `while` loop: returns the remaining list and the moved
bullets in pop order. -/
def popLoop (max_total_body_chars : Nat) (v : List PyStr) :
    List PyStr × List PyStr :=
  popLoopF max_total_body_chars v.length v

/-- Step 1 of `_remediate_slide` (DROP_BULLETS): when the field is a list
with a recorded `TOO_MANY_BULLETS` violation and more bullets than the
budget, trim to the budget and record the dropped tail; returns the updated
fields, the (possibly rebound) local `value`, and the markers. -/
def remediate_step1 (max_bullets : Nat) (field_key : PyStr)
    (field_violations : List ValidationViolation)
    (fields : List (PyStr × FieldValue)) :
    List (PyStr × FieldValue) × FieldValue × List PyStr :=
  match (dictGet fields field_key).getD (.text []) with
  | .bullets items =>
    if 0 < max_bullets
        ∧ field_violations.any (fun v => v.violation_type == .TOO_MANY_BULLETS)
        ∧ max_bullets < items.length then
      (dictSet fields field_key (.bullets (items.take max_bullets)),
       .bullets (items.take max_bullets),
       [pystr "[Overflow from " ++ field_key ++ pystr "]: "
          ++ joinWith (pystr " | ") (items.drop max_bullets)])
    else (fields, .bullets items, [])
  | v => (fields, v, [])

/-- Step 2 of `_remediate_slide` (CONDENSE): when a `WORDS_PER_BULLET`
violation was recorded, shorten every bullet (or the scalar string) of the
post-drop value to the word budget. -/
def remediate_step2 (max_words_per_bullet : Nat) (field_key : PyStr)
    (field_violations : List ValidationViolation)
    (fields : List (PyStr × FieldValue)) (value : FieldValue) :
    List (PyStr × FieldValue) :=
  if field_violations.any (fun v => v.violation_type == .WORDS_PER_BULLET) then
    match value with
    | .bullets items =>
      dictSet fields field_key
        (.bullets (items.map (fun b => shorten_bullet b max_words_per_bullet)))
    | .text s => dictSet fields field_key (.text (shorten_bullet s max_words_per_bullet))
  else fields

/-- Step 3 of `_remediate_slide` (MOVE_TO_SPEAKER_NOTES): re-measure the
field; while a multi-bullet list is over budget pop the last bullet into
notes; a list that was already single-bullet (or a scalar string) is
truncated to the budget with the untruncated original recorded. -/
def remediate_step3 (max_total_body_chars : Nat) (field_key : PyStr)
    (fields : List (PyStr × FieldValue)) :
    List (PyStr × FieldValue) × List PyStr :=
  if 0 < max_total_body_chars
      ∧ max_total_body_chars < count_chars ((dictGet fields field_key).getD (.text [])) then
    match (dictGet fields field_key).getD (.text []) with
    | .bullets items =>
      if 1 < items.length then
        (dictSet fields field_key (.bullets (popLoop max_total_body_chars items).1),
         (popLoop max_total_body_chars items).2.map (fun m =>
           pystr "[Moved from " ++ field_key ++ pystr "]: " ++ m))
      else
        match items with
        | [b] =>
          (dictSet fields field_key (.bullets [truncate_text b max_total_body_chars]),
           if truncate_text b max_total_body_chars ≠ b then
             [pystr "[Full text from " ++ field_key ++ pystr "]: " ++ b] else [])
        | _ => (fields, [])
    | .text s =>
      (dictSet fields field_key (.text (truncate_text s max_total_body_chars)),
       if max_total_body_chars < s.length then
         [pystr "[Full text from " ++ field_key ++ pystr "]: " ++ s] else [])
  else (fields, [])

/-- Remediation of a single body field (steps 1-3 of `_remediate_slide`):
returns the updated fields dict and the overflow markers produced. -/
def remediate_body_field (max_bullets max_words_per_bullet max_total_body_chars : Nat)
    (field_key : PyStr) (field_violations : List ValidationViolation)
    (fields : List (PyStr × FieldValue)) :
    List (PyStr × FieldValue) × List PyStr :=
  if field_violations.isEmpty then (fields, [])
  else
    let s1 := remediate_step1 max_bullets field_key field_violations fields
    let fields2 := remediate_step2 max_words_per_bullet field_key field_violations s1.1 s1.2.1
    let s3 := remediate_step3 max_total_body_chars field_key fields2
    (s3.1, s1.2.2 ++ s3.2)

/-- The title-truncation section of `_remediate_slide`, applied to the
(deep-copied) fields: truncate `ph_title` when it is present and a
`TITLE_TOO_LONG` violation targets it. -/
def remediate_title_fields (slide : DeckSlide) (violations : List ValidationViolation)
    (layout_entry : CatalogEntry) : List (PyStr × FieldValue) :=
  let max_title_chars := layout_entry.constraints.max_title_chars.getD 100
  -- `new_fields = copy.deepcopy(slide.fields)` is a value copy in this model
  let new_fields := slide.fields
  match dictGet new_fields (pystr "ph_title") with
  | some t =>
    if violations.any (fun v =>
        v.field_key == some (pystr "ph_title")
          && v.violation_type == ViolationType.TITLE_TOO_LONG) then
      dictSet new_fields (pystr "ph_title")
        (.text (truncate_text (pyStrOfValue t) max_title_chars))
    else new_fields
  | none => new_fields

/-- One iteration of the body-field loop of `_remediate_slide`: select this
field's violations, run the three steps, accumulate the markers. -/
def remediate_body_step (max_bullets max_words_per_bullet max_total_body_chars : Nat)
    (violations : List ValidationViolation)
    (acc : List (PyStr × FieldValue) × List PyStr) (k : PyStr) :
    List (PyStr × FieldValue) × List PyStr :=
  let field_violations := violations.filter (fun v => v.field_key == some k)
  let res := remediate_body_field max_bullets max_words_per_bullet
    max_total_body_chars k field_violations acc.1
  (res.1, acc.2 ++ res.2)

/-- The field/marker computation of `_remediate_slide`: title truncation,
then the per-body-field steps in field order, accumulating overflow markers. -/
def remediate_core (slide : DeckSlide) (violations : List ValidationViolation)
    (layout_entry : CatalogEntry) : List (PyStr × FieldValue) × List PyStr :=
  let c := layout_entry.constraints
  let max_bullets := c.max_bullets.getD 7
  let max_words_per_bullet := c.max_words_per_bullet.getD 18
  let max_total_body_chars := c.max_total_body_chars.getD 500
  let new_fields := remediate_title_fields slide violations layout_entry
  let body_fields := (new_fields.map (fun p => p.1)).filter isBodyKey
  body_fields.foldl
    (remediate_body_step max_bullets max_words_per_bullet max_total_body_chars violations)
    (new_fields, [])

/-- `_remediate_slide` (`preflight.py`): remediated fields plus speaker notes
rebuilt from the serialized original and the overflow markers. -/
def remediate_slide (slide : DeckSlide) (violations : List ValidationViolation)
    (layout_entry : CatalogEntry) : DeckSlide :=
  let res := remediate_core slide violations layout_entry
  let new_fields := res.1
  let notes_additions := res.2
  let original_notes := serialize_notes slide.speaker_notes
  let new_notes :=
    if notes_additions.isEmpty then original_notes
    else
      let separator :=
        if original_notes.isEmpty then pystr "[REMEDIATION OVERFLOW]\n"
        else pystr "\n\n---\n[REMEDIATION OVERFLOW]\n"
      original_notes ++ separator ++ joinWith (pystr "\n") notes_additions
  { slide_id := slide.slide_id, layout_id := slide.layout_id,
    fields := new_fields, speaker_notes := .text new_notes,
    asset_refs := slide.asset_refs,
    constraints_override := slide.constraints_override }

/-- The per-slide body of the `validate_and_remediate` loop: the violations
this slide contributes and the slide appended to the output deck. -/
def process_slide (layout_catalog : List (PyStr × CatalogEntry)) (slide : DeckSlide) :
    List ValidationViolation × DeckSlide :=
  match dictGet layout_catalog slide.layout_id with
  | none =>
    ([{ slide_id := slide.slide_id, layout_id := slide.layout_id,
        field_key := Option.none, violation_type := .BODY_TOO_DENSE,
        severity := .BLOCKING,
        recommended_action := some (pystr "Unknown layout_id: " ++ slide.layout_id) }],
     slide)
  | some layout_entry =>
    let slide_violations := validate_slide slide layout_entry
    if slide_violations.isEmpty then (slide_violations, slide)
    else (slide_violations, remediate_slide slide slide_violations layout_entry)

/-- `validate_and_remediate` (`preflight.py`): slides are processed
independently in deck order; violations are concatenated in that order.
`layout_catalog` is the dict built by `_load_layout_catalog` (file loading
abstracted as the loaded, uniquely-keyed dict). -/
def validate_and_remediate (deck : DeckIR) (layout_catalog : List (PyStr × CatalogEntry)) :
    DeckIR × ValidationReport :=
  ({ deck_id := deck.deck_id, run_id := deck.run_id,
     template_id := deck.template_id, title := deck.title,
     subtitle := deck.subtitle, global_constraints := deck.global_constraints,
     slides := deck.slides.map (fun s => (process_slide layout_catalog s).2) },
   { violations := (deck.slides.map (fun s => (process_slide layout_catalog s).1)).flatten })

/-! ## Template model

The pptx template is external to the repository; the renderer and drift
validator read it only through: the list of slide masters, each master's
list of layouts, a layout's name, the shapes of a layout, the shapes of a
slide instantiated from a layout, and per shape its alt-text metadata
(`descr`), placeholder flag and placeholder index.  Those observations are
the template model; `slide_shapes` records what python-pptx's `add_slide`
exposes for a slide instantiated from the layout. -/

/-- A shape as `_read_alt_text` and the placeholder walk observe it;
`alt_text = some s` models a present, non-empty `descr`. -/
structure TplShape where
  alt_text : Option PyStr := Option.none
  is_placeholder : Bool := false
  placeholder_idx : Nat := 0
deriving DecidableEq, Repr

/-- `_read_alt_text` (`drift.py`): the `descr` string when present and
non-empty, else `None`. -/
def read_alt_text (sh : TplShape) : Option PyStr :=
  match sh.alt_text with
  | some s => if s.isEmpty then Option.none else some s
  | none => Option.none

/-- A slide layout inside the template. -/
structure TplLayout where
  name : PyStr := []
  layout_shapes : List TplShape := []
  slide_shapes : List TplShape := []
deriving DecidableEq, Repr

/-- A slide master. -/
structure TplMaster where
  layouts : List TplLayout := []
deriving DecidableEq, Repr

/-- The template: its slide masters. -/
structure Template where
  masters : List TplMaster := []
deriving DecidableEq, Repr

/-- Python sequence indexing with negative-index wrap-around. -/
def pyIndex {β : Type} (l : List β) (i : Int) : Option β :=
  if 0 ≤ i then l.get? i.toNat
  else if 0 ≤ (l.length : Int) + i then l.get? ((l.length : Int) + i).toNat
  else Option.none

/-! ## Renderer (`src/render/renderer.py`) -/

/-- `RenderMapEntry` (`src/models/render_map.py`). -/
structure RenderMapEntry where
  slide_id : PyStr
  slide_index : Nat
  field_keys : List PyStr
deriving DecidableEq, Repr

/-- The renderer's filesystem-facing configuration: the project root and
icons directory derived from its constructor paths, the loaded icon index,
and the set of existing files (the filesystem abstracted as data). -/
structure RendererCfg where
  project_root : PyStr := []
  icons_dir : PyStr := []
  icon_index : List (PyStr × PyStr) := []
  existing_files : List PyStr := []
deriving DecidableEq, Repr

/-- `sorted(set(keys))`: distinct keys in Python string order. -/
def pySortedSet (l : List PyStr) : List PyStr :=
  sortBy pyStrLe l.dedup

/-- `_layout_field_key_by_idx` (`renderer.py`): placeholder index to alt text
over the layout's shapes, later shapes overwriting earlier ones. -/
def layout_field_key_by_idx (layout : TplLayout) : List (Nat × PyStr) :=
  layout.layout_shapes.foldl
    (fun (m : List (Nat × PyStr)) sh =>
      if sh.is_placeholder then
        match read_alt_text sh with
        | some a => dictSet m sh.placeholder_idx a
        | none => m
      else m) []

/-- The field key the render loop resolves for one instantiated shape: its
own alt text, else (for placeholders) the layout's key for its placeholder
index, which is then self-healed back into the shape's metadata (a document
mutation with no effect on the returned RenderMap). -/
def resolve_shape_key (field_key_by_idx : List (Nat × PyStr)) (sh : TplShape) :
    Option PyStr :=
  match read_alt_text sh with
  | some a => some a
  | none =>
    if sh.is_placeholder then dictGet field_key_by_idx sh.placeholder_idx
    else Option.none

/-- The field keys actually present and addressable on a slide instantiated
from `layout`, in shape order, duplicates included. -/
def slide_field_keys (layout : TplLayout) : List PyStr :=
  layout.slide_shapes.filterMap (resolve_shape_key (layout_field_key_by_idx layout))

/-- `Renderer._resolve_asset_path`: icon lookup against the icon index, or
image path resolution in search order (absolute, project root, assets
subdirectory).  Paths are strings; `existing_files` models the filesystem. -/
def resolve_asset_path (cfg : RendererCfg) (a : AssetRef) : Except PyStr PyStr :=
  match a.asset_type with
  | .icon =>
    match dictGet cfg.icon_index a.asset_id with
    | some fn =>
      if fn.isEmpty then .error (pystr "Unknown icon_id: " ++ a.asset_id)
      else .ok (cfg.icons_dir ++ pystr "/" ++ fn)
    | none => .error (pystr "Unknown icon_id: " ++ a.asset_id)
  | .image =>
    if a.asset_id.head? = some '/' then .ok a.asset_id
    else
      let candidate := cfg.project_root ++ pystr "/" ++ a.asset_id
      if cfg.existing_files.contains candidate then .ok candidate
      else
        let assets_candidate := cfg.project_root ++ pystr "/assets/" ++ a.asset_id
        if cfg.existing_files.contains assets_candidate then .ok assets_candidate
        else .error (pystr "Missing asset: " ++ a.asset_id)

/-- The asset loop of `Renderer.render`: every asset ref must name a target
field key bound on this slide and resolve to an asset path, else the render
raises.  Image insertion itself only mutates the document. -/
def check_assets (cfg : RendererCfg) (bound_keys : List PyStr) :
    List AssetRef → Except PyStr Unit
  | [] => .ok ()
  | a :: rest =>
    match a.target_field_key with
    | none => .error (pystr "Asset ref missing target_field_key: " ++ a.asset_id)
    | some k =>
      if k.isEmpty then .error (pystr "Asset ref missing target_field_key: " ++ a.asset_id)
      else if !(bound_keys.contains k) then
        .error (pystr "Missing placeholder for asset target: " ++ k)
      else
        match resolve_asset_path cfg a with
        | .error e => .error e
        | .ok _ => check_assets cfg bound_keys rest

/-- One iteration of the render loop for the slide at output position `n`:
layout lookup (fatal when unknown), structural resolution inside the
template (a `KeyError`/`IndexError` aborts likewise), placeholder walk,
asset checks, and the recorded `RenderMapEntry`.  Text, image and notes
insertion mutate only the output document. -/
def render_slide (cfg : RendererCfg) (tpl : Template)
    (layout_catalog : List (PyStr × CatalogEntry)) (n : Nat) (s : DeckSlide) :
    Except PyStr RenderMapEntry :=
  match dictGet layout_catalog s.layout_id with
  | none => .error (pystr "Unknown layout_id: " ++ s.layout_id)
  | some entry =>
    match entry.master_index with
    | none => .error (pystr "KeyError: master_index")
    | some mi =>
      match entry.layout_index with
      | none => .error (pystr "KeyError: layout_index")
      | some li =>
        match pyIndex tpl.masters mi with
        | none => .error (pystr "IndexError: slide_masters")
        | some master =>
          match pyIndex master.layouts li with
          | none => .error (pystr "IndexError: slide_layouts")
          | some layout =>
            let field_keys := slide_field_keys layout
            match check_assets cfg field_keys s.asset_refs with
            | .error e => .error e
            | .ok _ =>
              .ok { slide_id := s.slide_id, slide_index := n,
                    field_keys := pySortedSet field_keys }

/-- The render loop over the remaining slides: `n` output slides have been
added so far and `m` is the render map built so far. -/
def render_slides (cfg : RendererCfg) (tpl : Template)
    (layout_catalog : List (PyStr × CatalogEntry)) :
    List DeckSlide → Nat → List (PyStr × RenderMapEntry) →
    Except PyStr (List (PyStr × RenderMapEntry))
  | [], _, m => .ok m
  | s :: rest, n, m =>
    match render_slide cfg tpl layout_catalog n s with
    | .error e => .error e
    | .ok entry =>
      render_slides cfg tpl layout_catalog rest (n + 1) (dictSet m s.slide_id entry)

/-- `Renderer.render`: starting from a template copy with all existing
slides removed, process the deck's slides in order; the document is saved
(and the RenderMap returned) only after every slide succeeded, so an error
anywhere produces no document. -/
def render (cfg : RendererCfg) (tpl : Template)
    (layout_catalog : List (PyStr × CatalogEntry)) (deck : DeckIR) :
    Except PyStr (List (PyStr × RenderMapEntry)) :=
  render_slides cfg tpl layout_catalog deck.slides 0 []

/-! ## Drift validator (`src/validate/drift.py`) -/

/-- `_layout_field_keys` (`drift.py`): the set of alt texts over all of a
layout's shapes (as a list; only membership is consulted). -/
def drift_layout_field_keys (layout : TplLayout) : List PyStr :=
  layout.layout_shapes.filterMap read_alt_text

/-- Truthiness of the optional `layout_id`: absent or empty is falsy. -/
def layoutIdMissing : Option PyStr → Bool
  | none => true
  | some s => s.isEmpty

/-- The structural-coordinate checks of `validate_template_catalog` fail for
this entry: the master index is absent (non-int) or out of range, or the
master resolves but the layout index is absent or out of range. -/
def coords_missing (tpl : Template) (entry : CatalogEntry) : Bool :=
  match entry.master_index with
  | none => true
  | some mi =>
    if mi < 0 || (tpl.masters.length : Int) ≤ mi then true
    else
      match entry.layout_index with
      | none => true
      | some li => li < 0 || ((tpl.masters.get? mi.toNat).map
          (fun m => (m.layouts.length : Int))).getD 0 ≤ li

/-- The errors `validate_template_catalog` produces for one entry with a
fresh, non-empty `layout_id`: structural resolution, name drift, and
required-field presence. -/
def drift_entry_errors (tpl : Template) (lid : PyStr) (entry : CatalogEntry) :
    List PyStr :=
  match entry.master_index with
  | none =>
    [pystr "Layout " ++ lid ++ pystr " missing in template: master_index="
      ++ optIntChars entry.master_index]
  | some mi =>
    if mi < 0 || (tpl.masters.length : Int) ≤ mi then
      [pystr "Layout " ++ lid ++ pystr " missing in template: master_index="
        ++ optIntChars entry.master_index]
    else
      match tpl.masters.get? mi.toNat with
      | none => [pystr "Layout " ++ lid ++ pystr " missing in template: master_index="
          ++ optIntChars entry.master_index]
      | some master =>
        let layoutBad :=
          match entry.layout_index with
          | none => true
          | some li => li < 0 || (master.layouts.length : Int) ≤ li
        if layoutBad then
          [pystr "Layout " ++ lid ++ pystr " missing in template: master_index="
            ++ optIntChars entry.master_index ++ pystr ", layout_index="
            ++ optIntChars entry.layout_index]
        else
          match entry.layout_index with
          | none => []
          | some li =>
            match master.layouts.get? li.toNat with
            | none => []
            | some layout =>
              (match entry.template_layout_name with
               | some nm =>
                 if !nm.isEmpty && layout.name ≠ nm then
                   [pystr "Layout " ++ lid ++ pystr " name mismatch: catalog='"
                     ++ nm ++ pystr "' template='" ++ layout.name ++ pystr "'"]
                 else []
               | none => [])
              ++ (entry.fields.filterMap (fun f =>
                   if f.required then
                     match f.field_key with
                     | some fk =>
                       if !fk.isEmpty
                           && !((drift_layout_field_keys layout).contains fk) then
                         some (pystr "Layout " ++ lid
                           ++ pystr " missing required field_key: " ++ fk)
                       else Option.none
                     | none => Option.none
                   else Option.none))

/-- The entry loop of `validate_template_catalog`, threading the error list
and the set of `layout_id`s seen so far. -/
def drift_go (tpl : Template) :
    List CatalogEntry → List PyStr → List PyStr → List PyStr
  | [], errors, _ => errors
  | entry :: rest, errors, seen =>
    if layoutIdMissing entry.layout_id then
      drift_go tpl rest (errors ++ [pystr "Catalog entry missing layout_id"]) seen
    else
      let lid := entry.layout_id.getD []
      if seen.contains lid then
        drift_go tpl rest (errors ++ [pystr "Duplicate layout_id in catalog: " ++ lid]) seen
      else
        drift_go tpl rest (errors ++ drift_entry_errors tpl lid entry) (seen ++ [lid])

/-- `validate_template_catalog` (`drift.py`): a list of error strings; the
function reports, it never raises.  `layouts` is the catalog's entry list as
loaded from JSON. -/
def validate_template_catalog (tpl : Template) (layouts : List CatalogEntry) :
    List PyStr :=
  drift_go tpl layouts [] []

/-! ## Heap embedding of the preflight engine

The pure embedding above cannot express Python's in-place mutation, object
identity, or `copy.deepcopy`.  To settle the frame claim (`_remediate_slide`
deep-copies `slide.fields` and every subsequent write — dict assignment,
list `pop`, fresh list allocation — targets only objects allocated after
entry), the mutable objects of the engine are embedded explicitly: a heap of
Python objects addressed by allocation index.  The mutable objects in play
are the per-slide `fields` dict and the list-valued field contents; strings
are immutable and stay values, and the pydantic records are rebuilt (never
assigned to) by the code, so they stay values as well. -/

/-- A field value as stored inside a heap-resident fields dict: strings are
immutable values, lists are references to heap objects. -/
inductive HFieldValue
  | text (s : PyStr)
  | listRef (addr : Nat)
deriving DecidableEq, Repr

/-- A heap object: a fields dict or a list of bullet strings. -/
inductive HObj
  | fieldsObj (entries : List (PyStr × HFieldValue))
  | bulletsObj (items : List PyStr)
deriving DecidableEq, Repr

/-- The heap: objects addressed by index, allocation appends. -/
abbrev Heap := List HObj

/-- Allocate a new object, returning the extended heap and its address. -/
def halloc (h : Heap) (o : HObj) : Heap × Nat := (h ++ [o], h.length)

/-- Read the object at an address. -/
def hget (h : Heap) (a : Nat) : Option HObj := h.get? a

/-- Overwrite the object at an address (in-place mutation). -/
def hset (h : Heap) (a : Nat) (o : HObj) : Heap := h.set a o

/-- A `DeckSlide` whose `fields` dict lives on the heap. -/
structure HSlide where
  slide_id : PyStr
  layout_id : PyStr
  fields_addr : Nat
  speaker_notes : SpeakerNotes := .text []
  asset_refs : List AssetRef := []
  constraints_override : Option (List (PyStr × PyStr)) := Option.none
deriving DecidableEq, Repr

/-- A `DeckIR` over heap-resident slides. -/
structure HDeck where
  deck_id : PyStr
  run_id : PyStr
  template_id : PyStr
  title : PyStr
  subtitle : Option PyStr := Option.none
  global_constraints : List (PyStr × PyStr) := []
  slides : List HSlide
deriving DecidableEq, Repr

/-- Dereference a stored field value to its pure content. -/
def hval (h : Heap) : HFieldValue → FieldValue
  | .text s => .text s
  | .listRef a =>
    match hget h a with
    | some (.bulletsObj items) => .bullets items
    | _ => .bullets []

/-- The pure contents of a heap-resident fields dict. -/
def hfields (h : Heap) (a : Nat) : List (PyStr × FieldValue) :=
  match hget h a with
  | some (.fieldsObj entries) => entries.map (fun p => (p.1, hval h p.2))
  | _ => []

/-- The pure `DeckSlide` a heap slide currently denotes. -/
def toPureSlide (h : Heap) (s : HSlide) : DeckSlide :=
  { slide_id := s.slide_id, layout_id := s.layout_id,
    fields := hfields h s.fields_addr, speaker_notes := s.speaker_notes,
    asset_refs := s.asset_refs, constraints_override := s.constraints_override }

/-- The heap slide is well formed: its fields address holds a dict whose
list references all resolve to list objects. -/
def hSlideWF (h : Heap) (s : HSlide) : Bool :=
  match hget h s.fields_addr with
  | some (.fieldsObj entries) =>
    entries.all (fun p =>
      match p.2 with
      | .text _ => true
      | .listRef b =>
        match hget h b with
        | some (.bulletsObj _) => true
        | _ => false)
  | _ => false

/-- `copy.deepcopy` of one stored value: strings are immutable, list
contents are copied into a freshly allocated object. -/
def deepcopy_value (h : Heap) : HFieldValue → Heap × HFieldValue
  | .text s => (h, .text s)
  | .listRef a =>
    match hget h a with
    | some (.bulletsObj items) =>
      let r := halloc h (.bulletsObj items)
      (r.1, .listRef r.2)
    | _ =>
      let r := halloc h (.bulletsObj [])
      (r.1, .listRef r.2)

/-- `copy.deepcopy` of the dict entries, left to right. -/
def deepcopy_entries (h : Heap) :
    List (PyStr × HFieldValue) → Heap × List (PyStr × HFieldValue)
  | [] => (h, [])
  | (k, v) :: rest =>
    let r1 := deepcopy_value h v
    let r2 := deepcopy_entries r1.1 rest
    (r2.1, (k, r1.2) :: r2.2)

/-- `copy.deepcopy(slide.fields)`: copy the entries, then allocate the new
dict object. -/
def deepcopy_fields (h : Heap) (a : Nat) : Heap × Nat :=
  match hget h a with
  | some (.fieldsObj entries) =>
    let r := deepcopy_entries h entries
    halloc r.1 (.fieldsObj r.2)
  | _ => halloc h (.fieldsObj [])

/-- `d[k]` on a heap-resident dict. -/
def hDictGet (h : Heap) (a : Nat) (k : PyStr) : Option HFieldValue :=
  match hget h a with
  | some (.fieldsObj entries) => dictGet entries k
  | _ => Option.none

/-- `d[k] = v` on a heap-resident dict: in-place mutation of the dict
object. -/
def hDictSet (h : Heap) (a : Nat) (k : PyStr) (v : HFieldValue) : Heap :=
  match hget h a with
  | some (.fieldsObj entries) => hset h a (.fieldsObj (dictSet entries k v))
  | _ => h

/-- Heap version of step 1 (DROP_BULLETS): Python slicing copies, so the
trimmed list is a freshly allocated object bound into the dict at `a`. -/
def hremediate_step1 (max_bullets : Nat) (field_key : PyStr)
    (field_violations : List ValidationViolation) (a : Nat) (h : Heap) :
    Heap × HFieldValue × List PyStr :=
  match (hDictGet h a field_key).getD (.text []) with
  | .listRef la =>
    match hget h la with
    | some (.bulletsObj items) =>
      if 0 < max_bullets
          ∧ field_violations.any (fun v => v.violation_type == ViolationType.TOO_MANY_BULLETS)
          ∧ max_bullets < items.length then
        (hDictSet (halloc h (.bulletsObj (items.take max_bullets))).1 a field_key
           (.listRef (halloc h (.bulletsObj (items.take max_bullets))).2),
         .listRef (halloc h (.bulletsObj (items.take max_bullets))).2,
         [pystr "[Overflow from " ++ field_key ++ pystr "]: "
            ++ joinWith (pystr " | ") (items.drop max_bullets)])
      else (h, .listRef la, [])
    | _ => (h, .listRef la, [])
  | v => (h, v, [])

/-- Heap version of step 2 (CONDENSE): a list comprehension allocates a
fresh list object; a scalar string is an immutable value. -/
def hremediate_step2 (max_words_per_bullet : Nat) (field_key : PyStr)
    (field_violations : List ValidationViolation) (a : Nat)
    (value : HFieldValue) (h : Heap) : Heap :=
  if field_violations.any (fun v => v.violation_type == ViolationType.WORDS_PER_BULLET) then
    match value with
    | .listRef la =>
      match hget h la with
      | some (.bulletsObj items) =>
        hDictSet (halloc h (.bulletsObj (items.map
            (fun b => shorten_bullet b max_words_per_bullet)))).1 a field_key
          (.listRef (halloc h (.bulletsObj (items.map
            (fun b => shorten_bullet b max_words_per_bullet)))).2)
      | _ => h
    | .text s => hDictSet h a field_key (.text (shorten_bullet s max_words_per_bullet))
  else h

/-- Heap version of step 3 (MOVE_TO_SPEAKER_NOTES): the `while` loop pops
the list object *in place* — modelled by one write of the loop's final
contents to the same address, intermediate states being unobservable — while
the single-bullet truncation allocates a fresh one-element list. -/
def hremediate_step3 (max_total_body_chars : Nat) (field_key : PyStr)
    (a : Nat) (h : Heap) : Heap × List PyStr :=
  match (hDictGet h a field_key).getD (.text []) with
  | .listRef la =>
    match hget h la with
    | some (.bulletsObj items) =>
      if 0 < max_total_body_chars
          ∧ max_total_body_chars < count_chars (.bullets items) then
        if 1 < items.length then
          (hDictSet (hset h la (.bulletsObj (popLoop max_total_body_chars items).1))
             a field_key (.listRef la),
           (popLoop max_total_body_chars items).2.map (fun m =>
             pystr "[Moved from " ++ field_key ++ pystr "]: " ++ m))
        else
          match items with
          | [b] =>
            (hDictSet (halloc h (.bulletsObj [truncate_text b max_total_body_chars])).1
               a field_key
               (.listRef (halloc h (.bulletsObj [truncate_text b max_total_body_chars])).2),
             if truncate_text b max_total_body_chars ≠ b then
               [pystr "[Full text from " ++ field_key ++ pystr "]: " ++ b] else [])
          | _ => (h, [])
      else (h, [])
    | _ => (h, [])
  | .text s =>
    if 0 < max_total_body_chars ∧ max_total_body_chars < count_chars (.text s) then
      (hDictSet h a field_key (.text (truncate_text s max_total_body_chars)),
       if max_total_body_chars < s.length then
         [pystr "[Full text from " ++ field_key ++ pystr "]: " ++ s] else [])
    else (h, [])

/-- Heap version of the per-body-field remediation steps, mutating the dict
at address `a`. -/
def hremediate_body_field (max_bullets max_words_per_bullet max_total_body_chars : Nat)
    (field_key : PyStr) (field_violations : List ValidationViolation)
    (a : Nat) (h : Heap) : Heap × List PyStr :=
  if field_violations.isEmpty then (h, [])
  else
    let s1 := hremediate_step1 max_bullets field_key field_violations a h
    let h2 := hremediate_step2 max_words_per_bullet field_key field_violations a s1.2.1 s1.1
    let s3 := hremediate_step3 max_total_body_chars field_key a h2
    (s3.1, s1.2.2 ++ s3.2)

/-- Heap version of the title-truncation section of `_remediate_slide`,
applied to the copied dict at address `a`: the truncated title is an
immutable string written into the dict slot. -/
def hremediate_title (violations : List ValidationViolation)
    (max_title_chars : Nat) (a : Nat) (h : Heap) : Heap :=
  match hDictGet h a (pystr "ph_title") with
  | some t =>
    if violations.any (fun v =>
        v.field_key == some (pystr "ph_title")
          && v.violation_type == ViolationType.TITLE_TOO_LONG) then
      hDictSet h a (pystr "ph_title")
        (.text (truncate_text (pyStrOfValue (hval h t)) max_title_chars))
    else h
  | none => h

/-- Heap version of one iteration of the body-field loop. -/
def hremediate_body_step (max_bullets max_words_per_bullet max_total_body_chars : Nat)
    (violations : List ValidationViolation) (a : Nat)
    (acc : Heap × List PyStr) (k : PyStr) : Heap × List PyStr :=
  let field_violations := violations.filter (fun v => v.field_key == some k)
  let r := hremediate_body_field max_bullets max_words_per_bullet
    max_total_body_chars k field_violations a acc.1
  (r.1, acc.2 ++ r.2)

/-- Heap version of `_remediate_slide`: deep-copy the fields dict, truncate
the title on the copy, run the body steps on the copy, rebuild notes, and
return a new slide record holding the fresh dict. -/
def hremediate_slide (slide : HSlide) (violations : List ValidationViolation)
    (layout_entry : CatalogEntry) (h : Heap) : Heap × HSlide :=
  let c := layout_entry.constraints
  let dc := deepcopy_fields h slide.fields_addr
  let h1 := hremediate_title violations (c.max_title_chars.getD 100) dc.2 dc.1
  let dict_keys : List PyStr :=
    match hget h1 dc.2 with
    | some (HObj.fieldsObj entries) => entries.map (fun p => p.1)
    | _ => []
  let body_fields : List PyStr := dict_keys.filter isBodyKey
  let res := body_fields.foldl
    (hremediate_body_step (c.max_bullets.getD 7) (c.max_words_per_bullet.getD 18)
      (c.max_total_body_chars.getD 500) violations dc.2)
    (h1, [])
  let notes_additions := res.2
  let original_notes := serialize_notes slide.speaker_notes
  let new_notes :=
    if notes_additions.isEmpty then original_notes
    else
      let separator :=
        if original_notes.isEmpty then pystr "[REMEDIATION OVERFLOW]\n"
        else pystr "\n\n---\n[REMEDIATION OVERFLOW]\n"
      original_notes ++ separator ++ joinWith (pystr "\n") notes_additions
  (res.1, { slide_id := slide.slide_id, layout_id := slide.layout_id,
            fields_addr := dc.2, speaker_notes := .text new_notes,
            asset_refs := slide.asset_refs,
            constraints_override := slide.constraints_override })

/-- Heap version of the per-slide loop body of `validate_and_remediate`. -/
def hprocess_slide (layout_catalog : List (PyStr × CatalogEntry)) (slide : HSlide)
    (h : Heap) : Heap × List ValidationViolation × HSlide :=
  match dictGet layout_catalog slide.layout_id with
  | none =>
    (h, [{ slide_id := slide.slide_id, layout_id := slide.layout_id,
           field_key := Option.none, violation_type := .BODY_TOO_DENSE,
           severity := .BLOCKING,
           recommended_action := some (pystr "Unknown layout_id: " ++ slide.layout_id) }],
     slide)
  | some layout_entry =>
    let slide_violations := validate_slide (toPureSlide h slide) layout_entry
    if slide_violations.isEmpty then (h, slide_violations, slide)
    else
      let r := hremediate_slide slide slide_violations layout_entry h
      (r.1, slide_violations, r.2)

/-- Heap version of the `validate_and_remediate` loop over the slides. -/
def hvr_slides (layout_catalog : List (PyStr × CatalogEntry)) :
    List HSlide → Heap → Heap × List ValidationViolation × List HSlide
  | [], h => (h, [], [])
  | s :: rest, h =>
    let r := hprocess_slide layout_catalog s h
    let rr := hvr_slides layout_catalog rest r.1
    (rr.1, r.2.1 ++ rr.2.1, r.2.2 :: rr.2.2)

/-- Heap version of `validate_and_remediate`: processes the slides in order,
returning the final heap, a freshly constructed `HDeck` and the report. -/
def hvalidate_and_remediate (deck : HDeck)
    (layout_catalog : List (PyStr × CatalogEntry)) (h : Heap) :
    Heap × HDeck × ValidationReport :=
  let r := hvr_slides layout_catalog deck.slides h
  (r.1,
   { deck_id := deck.deck_id, run_id := deck.run_id,
     template_id := deck.template_id, title := deck.title,
     subtitle := deck.subtitle, global_constraints := deck.global_constraints,
     slides := r.2.2 },
   { violations := r.2.1 })

/-- The template layout a catalog entry's structural coordinates denote, when
they resolve (`prs.slide_masters[master_index].slide_layouts[layout_index]`). -/
def resolve_layout (tpl : Template) (entry : CatalogEntry) : Option TplLayout :=
  match entry.master_index, entry.layout_index with
  | some mi, some li => (pyIndex tpl.masters mi).bind (fun m => pyIndex m.layouts li)
  | _, _ => Option.none

/-! ## Concrete instances used by counterexamples and witnesses -/

/-- A layout entry whose body character budget is 10. -/
def entrySmallBody : CatalogEntry :=
  { layout_id := some (pystr "content"),
    constraints := { max_total_body_chars := some 10 } }

/-- The loaded catalog dict holding `entrySmallBody` under `"content"`. -/
def catSmallBody : List (PyStr × CatalogEntry) := [(pystr "content", entrySmallBody)]

/-- A slide whose body is a two-bullet list whose first bullet alone exceeds
the 10-character budget. -/
def slideTwoBullets : DeckSlide :=
  { slide_id := pystr "s1", layout_id := pystr "content",
    fields := [(pystr "ph_body", .bullets [pystr "aaaaaaaaaaaa", pystr "b"])] }

/-- A deck holding `slideTwoBullets`. -/
def deckTwoBullets : DeckIR :=
  { deck_id := pystr "d", run_id := pystr "r", template_id := pystr "t",
    title := pystr "T", slides := [slideTwoBullets] }

/-- A slide whose content is within every default budget. -/
def slideClean : DeckSlide :=
  { slide_id := pystr "s1", layout_id := pystr "content",
    fields := [(pystr "ph_title", .text (pystr "Hi")),
               (pystr "ph_body", .bullets [pystr "one", pystr "two"])] }

/-- A deck holding `slideClean`. -/
def deckClean : DeckIR :=
  { deck_id := pystr "d", run_id := pystr "r", template_id := pystr "t",
    title := pystr "T", slides := [slideClean] }

/-- A slide referencing a layout id absent from every catalog below. -/
def slideNoLayout : DeckSlide :=
  { slide_id := pystr "s1", layout_id := pystr "nonexistent_layout",
    fields := [(pystr "ph_title", .text (pystr "Title"))] }

/-- A deck holding `slideNoLayout`. -/
def deckNoLayout : DeckIR :=
  { deck_id := pystr "d", run_id := pystr "r", template_id := pystr "t",
    title := pystr "T", slides := [slideNoLayout] }

/-- A layout entry whose `max_bullets` budget is explicitly 0. -/
def entryZeroBullets : CatalogEntry :=
  { layout_id := some (pystr "title_only"),
    constraints := { max_bullets := some 0 } }

/-- A slide bound to that layout with non-empty body content. -/
def slideHi : DeckSlide :=
  { slide_id := pystr "s5", layout_id := pystr "title_only",
    fields := [(pystr "ph_body", .text (pystr "hi"))] }

/-- A layout entry whose `max_bullets` is explicitly 0 and whose body
character budget is 2. -/
def entryZeroTiny : CatalogEntry :=
  { layout_id := some (pystr "t"),
    constraints := { max_bullets := some 0, max_total_body_chars := some 2 } }

/-- A slide bound to that layout whose 3-character body only violates the
character budget. -/
def slideAbc : DeckSlide :=
  { slide_id := pystr "s6", layout_id := pystr "t",
    fields := [(pystr "ph_body", .text (pystr "abc"))] }

/-- A layout entry whose word budget is 2 and whose other budgets are the
defaults. -/
def entryTwoWords : CatalogEntry :=
  { layout_id := some (pystr "content"),
    constraints := { max_words_per_bullet := some 2 } }

/-- A slide with structured (dict) speaker notes whose only violation is the
word budget, so remediation produces no overflow markers. -/
def slideDictNotes : DeckSlide :=
  { slide_id := pystr "s7", layout_id := pystr "content",
    fields := [(pystr "ph_body", .text (pystr "a b c"))],
    speaker_notes := .structured [(pystr "k", pystr "v")] }

/-- The same content with plain-text speaker notes. -/
def slideTextNotes : DeckSlide :=
  { slide_id := pystr "s8", layout_id := pystr "content",
    fields := [(pystr "ph_body", .text (pystr "a b c"))],
    speaker_notes := .text (pystr "orig") }

/-- A template with one master holding one layout named "Content", whose
layout and instantiated-slide shapes carry field keys `ph_title` and
`ph_body` (and one unaddressable decorative shape). -/
def tplOne : Template :=
  { masters :=
      [{ layouts :=
          [{ name := pystr "Content",
             layout_shapes :=
               [{ alt_text := some (pystr "ph_title"), is_placeholder := true,
                  placeholder_idx := 0 },
                { alt_text := some (pystr "ph_body"), is_placeholder := true,
                  placeholder_idx := 1 }],
             slide_shapes :=
               [{ alt_text := Option.none, is_placeholder := true,
                  placeholder_idx := 0 },
                { alt_text := some (pystr "ph_body"), is_placeholder := true,
                  placeholder_idx := 1 },
                { alt_text := Option.none, is_placeholder := false,
                  placeholder_idx := 0 }] }] }] }

/-- A catalog entry resolving to the single layout of `tplOne`. -/
def entryTpl : CatalogEntry :=
  { layout_id := some (pystr "content"), master_index := some 0,
    layout_index := some 0, template_layout_name := some (pystr "Content") }

/-- The loaded catalog dict holding `entryTpl`. -/
def catTpl : List (PyStr × CatalogEntry) := [(pystr "content", entryTpl)]

/-- A slide to render against `tplOne`, requesting a key (`ph_extra`) that is
not addressable on the layout. -/
def slideRender : DeckSlide :=
  { slide_id := pystr "r1", layout_id := pystr "content",
    fields := [(pystr "ph_title", .text (pystr "Hello")),
               (pystr "ph_extra", .text (pystr "ignored"))] }

/-- A deck holding `slideRender`. -/
def deckRender : DeckIR :=
  { deck_id := pystr "d", run_id := pystr "r", template_id := pystr "t",
    title := pystr "T", slides := [slideRender] }

/-- The catalog (entry list) refuting C9: a first entry with good structural
coordinates and a second entry with the same `layout_id` but an out-of-range
master index. -/
def catDupBadCoords : List CatalogEntry :=
  [{ layout_id := some (pystr "lay"), master_index := some 0, layout_index := some 0 },
   { layout_id := some (pystr "lay"), master_index := some 5, layout_index := some 0 }]

/-- A single catalog entry with a fresh id and an out-of-range master index. -/
def catSoloBadCoords : List CatalogEntry :=
  [{ layout_id := some (pystr "solo"), master_index := some 5, layout_index := some 0 }]

/-- A heap holding one bullets object and one fields dict referencing it. -/
def heapTwoBullets : Heap :=
  [HObj.bulletsObj [pystr "aaaaaaaaaaaa", pystr "b"],
   HObj.fieldsObj [(pystr "ph_body", .listRef 0)]]

/-- The heap slide denoting `slideTwoBullets` over `heapTwoBullets`. -/
def hslideTwoBullets : HSlide :=
  { slide_id := pystr "s1", layout_id := pystr "content", fields_addr := 1 }

/-- The heap deck holding `hslideTwoBullets`. -/
def hdeckTwoBullets : HDeck :=
  { deck_id := pystr "d", run_id := pystr "r", template_id := pystr "t",
    title := pystr "T", slides := [hslideTwoBullets] }

/-- Naive substring test (Python `needle in hay`), used to state that an
error message does or does not contain a phrase. -/
def containsSub (hay needle : PyStr) : Bool :=
  if needle.isPrefixOf hay then true
  else
    match hay with
    | [] => false
    | _ :: t => containsSub t needle

/-! ## Helper lemmas -/

theorem containsSub_of_eq (needle a b : PyStr) :
    containsSub (a ++ needle ++ b) needle = true := by
  induction a with
  | nil =>
    unfold containsSub
    rw [if_pos]
    rw [List.nil_append, List.isPrefixOf_iff_prefix]
    exact List.prefix_append _ _
  | cons c a' ih =>
    unfold containsSub
    split
    · rfl
    · simpa using ih

theorem ne_decomp_of_containsSub_false (hay needle : PyStr)
    (h : containsSub hay needle = false) : ∀ a b, hay ≠ a ++ needle ++ b := by
  intro a b heq
  rw [heq, containsSub_of_eq] at h
  exact Bool.noConfusion h

theorem rstrip_length_le (s : PyStr) : (rstrip s).length ≤ s.length := by
  unfold rstrip
  calc ((s.reverse.dropWhile Char.isWhitespace).reverse).length
      = (s.reverse.dropWhile Char.isWhitespace).length := List.length_reverse _
    _ ≤ s.reverse.length := (List.dropWhile_sublist _).length_le
    _ = s.length := List.length_reverse _

/-- Unfolding equation for the main branch of `_truncate_text`
(`3 < N < len s`). -/
theorem truncate_text_main (s : PyStr) (N : Nat) (h1 : 3 < N) (h2 : N < s.length) :
    truncate_text s N
      = rstrip (if rfindSpace (s.take (N - 3)) * 10 > ((N : Int) - 3) * 7
          then (s.take (N - 3)).take (rfindSpace (s.take (N - 3))).toNat
          else s.take (N - 3)) ++ pystr "..." := by
  unfold truncate_text
  rw [if_neg (by omega), if_neg (by omega), if_neg (by omega)]

theorem rfindSpace_lt (l : PyStr) : rfindSpace l < (l.length : Int) := by
  induction l with
  | nil => simp [rfindSpace]
  | cons c rest ih =>
    unfold rfindSpace
    simp only [List.length_cons]
    split
    · push_cast; omega
    · split <;> push_cast <;> omega

theorem rfindSpace_get (l : PyStr) (h : 0 ≤ rfindSpace l) :
    l.get? (rfindSpace l).toNat = some ' ' := by
  induction l with
  | nil => simp [rfindSpace] at h
  | cons c rest ih =>
    unfold rfindSpace at h ⊢
    by_cases hr : 0 ≤ rfindSpace rest
    · simp only [if_pos hr]
      have : (rfindSpace rest + 1).toNat = (rfindSpace rest).toNat + 1 := by omega
      rw [this]
      simpa using ih hr
    · simp only [if_neg hr] at h ⊢
      by_cases hc : c = ' '
      · simp [hc]
      · simp [hc] at h

theorem dictGet_dictSet_self {β : Type} (d : List (PyStr × β)) (k : PyStr) (v : β) :
    dictGet (dictSet d k v) k = some v := by
  induction d with
  | nil => simp [dictGet, dictSet, List.find?]
  | cons p rest ih =>
    unfold dictSet
    by_cases h : p.1 == k
    · simp only [h, if_pos]
      simp only [dictGet, List.find?]
      simp
    · rw [if_neg (by simpa using h)]
      simp only [dictGet, List.find?] at ih ⊢
      simp only [h]
      exact ih

theorem dictGet_dictSet_ne {β : Type} (d : List (PyStr × β)) (k k' : PyStr) (v : β)
    (h : k' ≠ k) : dictGet (dictSet d k v) k' = dictGet d k' := by
  induction d with
  | nil =>
    simp only [dictGet, dictSet, List.find?]
    have : ¬ (k == k') := by simpa using fun e => h e.symm
    simp [this]
  | cons p rest ih =>
    unfold dictSet
    by_cases hp : p.1 == k
    · rw [if_pos hp]
      simp only [dictGet, List.find?]
      have hk : ¬ (k == k') := by simpa using fun e => h e.symm
      have hp' : ¬ (p.1 == k') = true := by
        simp only [beq_iff_eq] at hp ⊢
        rw [hp]
        exact fun e => h e.symm
      simp only [hk]
      simp only [Bool.not_eq_true] at hp'
      simp [hp']
    · rw [if_neg (by simpa using hp)]
      simp only [dictGet, List.find?] at ih ⊢
      cases hpk : (p.1 == k') <;> simp [hpk, ih]

theorem mem_dictSet {β : Type} (d : List (PyStr × β)) (k : PyStr) (v : β)
    (p : PyStr × β) (h : p ∈ dictSet d k v) : p = (k, v) ∨ p ∈ d := by
  induction d with
  | nil => simpa [dictSet] using h
  | cons q rest ih =>
    unfold dictSet at h
    by_cases hq : q.1 == k
    · rw [if_pos hq] at h
      rcases List.mem_cons.mp h with h1 | h1
      · exact Or.inl h1
      · exact Or.inr (List.mem_cons_of_mem _ h1)
    · rw [if_neg (by simpa using hq)] at h
      rcases List.mem_cons.mp h with h1 | h1
      · exact Or.inr (by simp [h1])
      · rcases ih h1 with h2 | h2
        · exact Or.inl h2
        · exact Or.inr (List.mem_cons_of_mem _ h2)

/-! ## C4: the truncation primitive -/

/-- C4 (counterexample): at budget 2 on input `"abcd"` truncation occurs
(4 > 2) yet the result `"ab"` does not end with an ellipsis marker (and its
kept length, 2, is at least 70% of the budget while not sitting at any word
boundary), refuting the claim that the result always ends with an ellipsis
marker when truncation occurs. -/
theorem c4_counterexample :
    2 < (pystr "abcd").length
    ∧ truncate_text (pystr "abcd") 2 = pystr "ab"
    ∧ ¬ ∃ t, truncate_text (pystr "abcd") 2 = t ++ pystr "..." := by
  refine ⟨by decide, by decide, ?_⟩
  rintro ⟨t, ht⟩
  have h2 : (truncate_text (pystr "abcd") 2).length = t.length + (pystr "...").length := by
    rw [ht, List.length_append]
  have h3 : (truncate_text (pystr "abcd") 2).length = 2 := by decide
  have h4 : (pystr "...").length = 3 := by decide
  omega

/-- C4 (amended): the result of `_truncate_text` never exceeds the requested
budget; when truncation occurs **and the budget exceeds 3** the result ends
with an ellipsis marker; and when additionally the truncated prefix contains
a space past 70% of the shortened budget, the kept text ends at a word
boundary of the input (the positive claim holds once the degenerate budgets
`N ≤ 3`, where the code returns a bare prefix, are excluded). -/
theorem c4_amended (s : PyStr) (N : Nat) :
    (truncate_text s N).length ≤ N
    ∧ (3 < N → N < s.length → ∃ t, truncate_text s N = t ++ pystr "...")
    ∧ (3 < N → N < s.length →
        ((N : Int) - 3) * 7 < rfindSpace (s.take (N - 3)) * 10 →
        ∃ k : Nat, k < s.length ∧ s.get? k = some ' '
          ∧ truncate_text s N = rstrip (s.take k) ++ pystr "...") := by
  refine ⟨?_, ?_, ?_⟩
  · by_cases h1 : 3 < N
    · by_cases h2 : N < s.length
      · rw [truncate_text_main s N h1 h2, List.length_append]
        have h4 : (pystr "...").length = 3 := by decide
        have hr : (rstrip (if rfindSpace (s.take (N - 3)) * 10 > ((N : Int) - 3) * 7
            then (s.take (N - 3)).take (rfindSpace (s.take (N - 3))).toNat
            else s.take (N - 3))).length ≤ N - 3 := by
          refine le_trans (rstrip_length_le _) ?_
          split
          · calc ((s.take (N - 3)).take (rfindSpace (s.take (N - 3))).toNat).length
                ≤ (s.take (N - 3)).length := by
                  rw [List.length_take, List.length_take]
                  omega
              _ ≤ N - 3 := by simp
          · simp
        omega
      · unfold truncate_text
        by_cases h0 : N = 0
        · rw [if_pos h0]
          simp [h0]
        · rw [if_neg h0, if_pos (by omega)]
          omega
    · unfold truncate_text
      by_cases h0 : N = 0
      · rw [if_pos h0]
        simp [h0]
      · rw [if_neg h0]
        by_cases h2 : s.length ≤ N
        · rw [if_pos h2]
          omega
        · rw [if_neg h2, if_pos (by omega)]
          simp
  · intro hN hlen
    rw [truncate_text_main s N hN hlen]
    exact ⟨_, rfl⟩
  · intro hN hlen hsp
    rw [truncate_text_main s N hN hlen]
    have hge : 0 ≤ rfindSpace (s.take (N - 3)) := by
      by_contra hneg
      push_neg at hneg
      have hcast : (3 : Int) < (N : Int) := by exact_mod_cast hN
      omega
    have hlt3 : (rfindSpace (s.take (N - 3))).toNat < N - 3 := by
      have := rfindSpace_lt (s.take (N - 3))
      have hmin : (s.take (N - 3)).length ≤ N - 3 := by simp
      omega
    refine ⟨(rfindSpace (s.take (N - 3))).toNat, by omega, ?_, ?_⟩
    · have hget := rfindSpace_get (s.take (N - 3)) hge
      rwa [List.get?_take hlt3] at hget
    · rw [if_pos (by omega), List.take_take, Nat.min_eq_left (by omega)]

/-- C4 (witness): concrete instantiation at `"abcdefgh ij klm"` with budget
13: the result fits in 13 characters, ends with an ellipsis, and cuts at the
space at index 8. -/
theorem c4_amended_witness :
    (truncate_text (pystr "abcdefgh ij klm") 13).length ≤ 13
    ∧ (∃ t, truncate_text (pystr "abcdefgh ij klm") 13 = t ++ pystr "...")
    ∧ (∃ k : Nat, k < (pystr "abcdefgh ij klm").length
        ∧ (pystr "abcdefgh ij klm").get? k = some ' '
        ∧ truncate_text (pystr "abcdefgh ij klm") 13
            = rstrip ((pystr "abcdefgh ij klm").take k) ++ pystr "...") :=
  ⟨(c4_amended (pystr "abcdefgh ij klm") 13).1,
   (c4_amended (pystr "abcdefgh ij klm") 13).2.1 (by decide) (by decide),
   (c4_amended (pystr "abcdefgh ij klm") 13).2.2 (by decide) (by decide) (by decide)⟩

/-! ## Structural facts about the validator -/

theorem body_field_violations_spec (slide : DeckSlide) (entry : CatalogEntry)
    (k : PyStr) (value : FieldValue) (v : ValidationViolation)
    (hv : v ∈ body_field_violations slide entry k value) :
    v.slide_id = slide.slide_id ∧ v.field_key = some k
    ∧ v.violation_type ≠ .TITLE_TOO_LONG
    ∧ v.violation_type ≠ .BODY_TOO_DENSE
    ∧ (v.violation_type = .TOO_MANY_BULLETS →
        0 < entry.constraints.max_bullets.getD 7) := by
  unfold body_field_violations at hv
  simp only [List.mem_append] at hv
  rcases hv with ((h | h) | h) | h <;> split at h <;> simp_all

theorem validate_slide_spec (slide : DeckSlide) (entry : CatalogEntry)
    (v : ValidationViolation) (hv : v ∈ validate_slide slide entry) :
    v.slide_id = slide.slide_id
    ∧ (v.field_key = some (pystr "ph_title") ∧ v.violation_type = .TITLE_TOO_LONG
       ∨ ∃ k, isBodyKey k = true ∧ v.field_key = some k
           ∧ v ∈ body_field_violations slide entry k
               ((dictGet slide.fields k).getD (.text []))) := by
  unfold validate_slide at hv
  simp only [List.mem_append] at hv
  rcases hv with h | h
  · constructor
    · split at h <;> [skip; simp at h] <;> split at h <;> simp_all
    · left
      split at h <;> [skip; simp at h] <;> split at h <;> simp_all
  · simp only [List.mem_flatten, List.mem_map] at h
    obtain ⟨l, ⟨k, hk, rfl⟩, hvl⟩ := h
    have hkb : isBodyKey k = true := (List.mem_filter.mp hk).2
    have hspec := body_field_violations_spec slide entry k _ v hvl
    exact ⟨hspec.1, Or.inr ⟨k, hkb, hspec.2.1, hvl⟩⟩

theorem process_slide_slide_id (cat : List (PyStr × CatalogEntry)) (s : DeckSlide)
    (v : ValidationViolation) (hv : v ∈ (process_slide cat s).1) :
    v.slide_id = s.slide_id := by
  simp only [process_slide] at hv
  split at hv
  · simp_all
  · split at hv <;> exact (validate_slide_spec s _ v hv).1

theorem process_slide_of_no_violations (cat : List (PyStr × CatalogEntry))
    (s : DeckSlide) (h : (process_slide cat s).1 = []) :
    process_slide cat s = ([], s) := by
  simp only [process_slide] at h ⊢
  split at h
  · simp at h
  · split at h
    · next he => simp_all [List.isEmpty_iff]
    · next he => simp_all [List.isEmpty_iff]

/-! ## C1: the remediation postcondition -/

/-- C1 (code bug): the failing input `slideTwoBullets` — body
`["aaaaaaaaaaaa", "b"]`, character budget 10.  The only violation is
`TOTAL_BODY_CHARS`; step 3's while loop pops `"b"` and stops at one
remaining bullet, and because the single-bullet truncation branch was
dispatched on the pre-loop value, the surviving 12-character bullet is left
untruncated: the remediated field still exceeds the budget, contradicting
the claimed postcondition (and §4.2 step (c) of the spec, whose "if the
field is *now* a single-bullet list … truncate" the code never reaches for
lists that entered the loop). -/
theorem c1_bug_eval :
    entrySmallBody.constraints.max_total_body_chars.getD 500 = 10
    ∧ dictGet catSmallBody slideTwoBullets.layout_id = some entrySmallBody
    ∧ (validate_and_remediate deckTwoBullets catSmallBody).2.violations.map
        (fun v => v.violation_type) = [.TOTAL_BODY_CHARS]
    ∧ (validate_and_remediate deckTwoBullets catSmallBody).1.slides.map
        (fun s => dictGet s.fields (pystr "ph_body"))
        = [some (.bullets [pystr "aaaaaaaaaaaa"])]
    ∧ 10 < count_chars (.bullets [pystr "aaaaaaaaaaaa"]) := by
  refine ⟨by decide, by decide, by decide, by decide, by decide⟩

/-! ## C2: idempotence of the preflight engine -/

/-- C2 (counterexample): running the engine a second time on its own output
for `deckTwoBullets` both reports a (new) violation and changes the deck
again — the surviving over-budget single bullet is re-flagged and this time
truncated — refuting idempotence as claimed. -/
theorem c2_counterexample :
    (validate_and_remediate (validate_and_remediate deckTwoBullets catSmallBody).1
        catSmallBody).2.violations ≠ []
    ∧ (validate_and_remediate (validate_and_remediate deckTwoBullets catSmallBody).1
        catSmallBody).1 ≠ (validate_and_remediate deckTwoBullets catSmallBody).1 := by
  refine ⟨by decide, by decide⟩

/-- C2 (amended): the engine is idempotent on decks it already finds clean —
whenever a run reports no violations, it returned its input unchanged, and
re-running on that output again yields the unchanged deck and an empty
report.  (In general a second run may re-report violations the remediator
does not rewrite, e.g. line-budget warnings, and may change the deck
further, as the counterexample shows.) -/
theorem c2_amended (deck : DeckIR) (cat : List (PyStr × CatalogEntry))
    (h : (validate_and_remediate deck cat).2.violations = []) :
    (validate_and_remediate deck cat).1 = deck
    ∧ validate_and_remediate (validate_and_remediate deck cat).1 cat
        = (deck, { violations := [] }) := by
  have hall : ∀ s ∈ deck.slides, (process_slide cat s).1 = [] := by
    intro s hs
    have h' : ((deck.slides.map (fun s => (process_slide cat s).1)).flatten) = [] := h
    rw [List.flatten_eq_nil_iff] at h'
    exact h' _ (List.mem_map_of_mem _ hs)
  have hmap : deck.slides.map (fun s => (process_slide cat s).2) = deck.slides := by
    have hc : ∀ s ∈ deck.slides, (process_slide cat s).2 = id s := fun s hs => by
      rw [process_slide_of_no_violations cat s (hall s hs)]
      rfl
    rw [List.map_congr_left hc, List.map_id]
  have hd1 : (validate_and_remediate deck cat).1 = deck := by
    show ({ deck_id := deck.deck_id, run_id := deck.run_id,
            template_id := deck.template_id, title := deck.title,
            subtitle := deck.subtitle, global_constraints := deck.global_constraints,
            slides := deck.slides.map (fun s => (process_slide cat s).2) } : DeckIR) = deck
    rw [hmap]
  have hsnd : (validate_and_remediate deck cat).2 = ({ violations := [] } : ValidationReport) := by
    have h2 : (validate_and_remediate deck cat).2.violations = [] := h
    cases hrep : (validate_and_remediate deck cat).2
    rw [hrep] at h2
    simpa using h2
  refine ⟨hd1, ?_⟩
  rw [hd1]
  calc validate_and_remediate deck cat
      = ((validate_and_remediate deck cat).1, (validate_and_remediate deck cat).2) :=
        Prod.mk.eta.symm
    _ = (deck, { violations := [] }) := by rw [hd1, hsnd]

/-- C2 (witness): `deckClean` is reported clean, so the amended idempotence
theorem applies to it concretely. -/
theorem c2_amended_witness :
    (validate_and_remediate deckClean catSmallBody).1 = deckClean
    ∧ validate_and_remediate (validate_and_remediate deckClean catSmallBody).1 catSmallBody
        = (deckClean, { violations := [] }) :=
  c2_amended deckClean catSmallBody (by decide)

/-! ## C5: the `max_bullets = 0` sentinel -/

/-- C5 (counterexample): on a layout whose `max_bullets` is explicitly 0,
the slide `slideHi` carries non-empty body content (`"hi"`), yet the
validator reports no violation at all — `max_bullets = 0` disables the
bullet-count check rather than making any content a violation. -/
theorem c5_counterexample :
    entryZeroBullets.constraints.max_bullets = some 0
    ∧ dictGet slideHi.fields (pystr "ph_body") = some (.text (pystr "hi"))
    ∧ count_chars (.text (pystr "hi")) ≠ 0
    ∧ validate_slide slideHi entryZeroBullets = [] := by
  refine ⟨by decide, by decide, by decide, by decide⟩

/-- C5 (amended): a `max_bullets` budget of exactly 0 disables the
bullet-count check: the validator never emits a `TOO_MANY_BULLETS` violation
for a slide bound to such a layout (and, per the counterexample, body
content within the remaining budgets is not otherwise a violation). -/
theorem c5_amended (slide : DeckSlide) (entry : CatalogEntry)
    (h : entry.constraints.max_bullets = some 0) :
    ∀ v ∈ validate_slide slide entry, v.violation_type ≠ .TOO_MANY_BULLETS := by
  intro v hv hty
  rcases (validate_slide_spec slide entry v hv).2 with ⟨_, hteq⟩ | ⟨k, _, _, hb⟩
  · rw [hty] at hteq
    exact absurd hteq (by decide)
  · have := (body_field_violations_spec slide entry k _ v hb).2.2.2.2 hty
    rw [h] at this
    simp at this

/-- C5 (witness): the amended theorem applied to the concrete violation the
validator emits for `slideAbc` on the `max_bullets = 0` layout
`entryZeroTiny` — it is a `TOTAL_BODY_CHARS` violation, not
`TOO_MANY_BULLETS`. -/
theorem c5_amended_witness :
    ({ slide_id := pystr "s6", layout_id := pystr "t",
       field_key := some (pystr "ph_body"), violation_type := .TOTAL_BODY_CHARS,
       severity := .BLOCKING,
       recommended_action := some (pystr "Reduce body text to 2 chars")
       : ValidationViolation }).violation_type ≠ .TOO_MANY_BULLETS :=
  c5_amended slideAbc entryZeroTiny (by decide) _ (by decide)

/-! ## C7: speaker-notes rebuilding -/

/-- C7 (counterexample): `slideDictNotes` carries structured (dict) speaker
notes and its only violation is the word budget, so remediation produces no
overflow markers — yet its notes are not passed through unchanged: they come
back serialized to the sorted-key JSON text, a different value. -/
theorem c7_counterexample :
    (remediate_core slideDictNotes
        (validate_slide slideDictNotes entryTwoWords) entryTwoWords).2 = []
    ∧ (remediate_slide slideDictNotes
        (validate_slide slideDictNotes entryTwoWords) entryTwoWords).speaker_notes
        ≠ slideDictNotes.speaker_notes := by
  refine ⟨by decide, by decide⟩

/-- C7 (amended): when remediation produces no overflow markers the slide's
notes come back as the *serialized* original — unchanged only when they
already were plain text (`None` and the empty dict become the empty string,
and a structured map is serialized to sorted-key JSON even then); when at
least one marker is produced, the new notes are the serialized original
concatenated with all markers behind a "REMEDIATION OVERFLOW" banner. -/
theorem c7_amended (slide : DeckSlide) (viols : List ValidationViolation)
    (entry : CatalogEntry) :
    ((remediate_core slide viols entry).2 = [] →
       (remediate_slide slide viols entry).speaker_notes
         = .text (serialize_notes slide.speaker_notes))
    ∧ (∀ t, (remediate_core slide viols entry).2 = [] →
        slide.speaker_notes = .text t →
        (remediate_slide slide viols entry).speaker_notes = slide.speaker_notes)
    ∧ ((remediate_core slide viols entry).2 ≠ [] →
       (remediate_slide slide viols entry).speaker_notes
         = .text (serialize_notes slide.speaker_notes
             ++ (if (serialize_notes slide.speaker_notes).isEmpty
                 then pystr "[REMEDIATION OVERFLOW]\n"
                 else pystr "\n\n---\n[REMEDIATION OVERFLOW]\n")
             ++ joinWith (pystr "\n") (remediate_core slide viols entry).2)) := by
  refine ⟨?_, ?_, ?_⟩
  · intro h
    simp only [remediate_slide, h]
    simp
  · intro t h ht
    simp only [remediate_slide, h, ht]
    simp [serialize_notes]
  · intro h
    simp only [remediate_slide]
    rw [if_neg (by simpa [List.isEmpty_iff] using h)]

/-- C7 (witness): plain-text notes with no markers are passed through
unchanged (`slideTextNotes`), and marker-producing remediation
(`slideTwoBullets`) rebuilds the notes behind the banner. -/
theorem c7_amended_witness :
    (remediate_slide slideTextNotes
        (validate_slide slideTextNotes entryTwoWords) entryTwoWords).speaker_notes
        = slideTextNotes.speaker_notes
    ∧ (remediate_slide slideTwoBullets
        (validate_slide slideTwoBullets entrySmallBody) entrySmallBody).speaker_notes
        = .text (serialize_notes slideTwoBullets.speaker_notes
            ++ (if (serialize_notes slideTwoBullets.speaker_notes).isEmpty
                then pystr "[REMEDIATION OVERFLOW]\n"
                else pystr "\n\n---\n[REMEDIATION OVERFLOW]\n")
            ++ joinWith (pystr "\n") (remediate_core slideTwoBullets
                (validate_slide slideTwoBullets entrySmallBody) entrySmallBody).2) :=
  ⟨(c7_amended slideTextNotes _ entryTwoWords).2.1 (pystr "orig") (by decide) (by decide),
   (c7_amended slideTwoBullets _ entrySmallBody).2.2 (by decide)⟩

/-! ## C10: key-name-based field classification -/

theorem remediate_step1_frame (mb : Nat) (k : PyStr)
    (viols : List ValidationViolation) (fields : List (PyStr × FieldValue))
    (k' : PyStr) (hne : k' ≠ k) :
    dictGet (remediate_step1 mb k viols fields).1 k' = dictGet fields k' := by
  simp only [remediate_step1]
  split
  · split
    · exact dictGet_dictSet_ne _ _ _ _ hne
    · rfl
  · rfl

theorem remediate_step2_frame (mw : Nat) (k : PyStr)
    (viols : List ValidationViolation) (fields : List (PyStr × FieldValue))
    (value : FieldValue) (k' : PyStr) (hne : k' ≠ k) :
    dictGet (remediate_step2 mw k viols fields value) k' = dictGet fields k' := by
  simp only [remediate_step2]
  split
  · split <;> exact dictGet_dictSet_ne _ _ _ _ hne
  · rfl

theorem remediate_step3_frame (mt : Nat) (k : PyStr)
    (fields : List (PyStr × FieldValue)) (k' : PyStr) (hne : k' ≠ k) :
    dictGet (remediate_step3 mt k fields).1 k' = dictGet fields k' := by
  simp only [remediate_step3]
  split
  · split
    · split
      · exact dictGet_dictSet_ne _ _ _ _ hne
      · split
        · exact dictGet_dictSet_ne _ _ _ _ hne
        · rfl
    · exact dictGet_dictSet_ne _ _ _ _ hne
  · rfl

theorem remediate_body_field_frame (mb mw mt : Nat) (k : PyStr)
    (viols : List ValidationViolation) (fields : List (PyStr × FieldValue))
    (k' : PyStr) (hne : k' ≠ k) :
    dictGet (remediate_body_field mb mw mt k viols fields).1 k'
      = dictGet fields k' := by
  simp only [remediate_body_field]
  split
  · rfl
  · show dictGet (remediate_step3 mt k (remediate_step2 mw k viols
        (remediate_step1 mb k viols fields).1
        (remediate_step1 mb k viols fields).2.1)).1 k' = dictGet fields k'
    rw [remediate_step3_frame mt k _ k' hne,
      remediate_step2_frame mw k viols _ _ k' hne,
      remediate_step1_frame mb k viols fields k' hne]

theorem remediate_body_step_frame (mb mw mt : Nat)
    (viols : List ValidationViolation)
    (acc : List (PyStr × FieldValue) × List PyStr) (k k' : PyStr) (hne : k' ≠ k) :
    dictGet (remediate_body_step mb mw mt viols acc k).1 k' = dictGet acc.1 k' := by
  simp only [remediate_body_step]
  exact remediate_body_field_frame mb mw mt k _ acc.1 k' hne

theorem foldl_dictGet_frame
    (f : (List (PyStr × FieldValue) × List PyStr) → PyStr →
      (List (PyStr × FieldValue) × List PyStr))
    (ks : List PyStr) (k' : PyStr)
    (hstep : ∀ acc x, x ∈ ks → dictGet (f acc x).1 k' = dictGet acc.1 k') :
    ∀ acc, dictGet (ks.foldl f acc).1 k' = dictGet acc.1 k' := by
  induction ks with
  | nil => intro acc; rfl
  | cons x xs ih =>
    intro acc
    rw [List.foldl_cons,
      ih (fun acc y hy => hstep acc y (List.mem_cons_of_mem _ hy)),
      hstep acc x (List.mem_cons_self x xs)]

theorem remediate_title_fields_frame (slide : DeckSlide)
    (viols : List ValidationViolation) (entry : CatalogEntry) (k' : PyStr)
    (hne : k' ≠ pystr "ph_title") :
    dictGet (remediate_title_fields slide viols entry) k' = dictGet slide.fields k' := by
  simp only [remediate_title_fields]
  split
  · split
    · exact dictGet_dictSet_ne _ _ _ _ hne
    · rfl
  · rfl

theorem remediate_core_frame (slide : DeckSlide) (viols : List ValidationViolation)
    (entry : CatalogEntry) (k' : PyStr) (hk1 : k' ≠ pystr "ph_title")
    (hk2 : isBodyKey k' = false) :
    dictGet (remediate_core slide viols entry).1 k' = dictGet slide.fields k' := by
  simp only [remediate_core]
  rw [foldl_dictGet_frame _ _ k' ?hstep]
  case hstep =>
    intro acc x hx
    have hxb : isBodyKey x = true := (List.mem_filter.mp hx).2
    exact remediate_body_step_frame _ _ _ _ acc x k'
      (fun e => by rw [e] at hk2; rw [hk2] at hxb; exact Bool.noConfusion hxb)
  exact remediate_title_fields_frame slide viols entry k' hk1

/-- C10: the preflight engine classifies fields by key name alone — every
violation `_validate_slide` emits targets either exactly `ph_title` or a key
starting with `ph_body`/`ph_col`, and `_remediate_slide` leaves every field
with any other key untouched, whatever the catalog's field schemas say (the
embedding consults no schema at all). -/
theorem c10_key_name_classification (slide : DeckSlide) (entry : CatalogEntry)
    (viols : List ValidationViolation) (k : PyStr)
    (hk : ¬ (k = pystr "ph_title" ∨ isBodyKey k = true)) :
    (∀ v ∈ validate_slide slide entry,
        v.field_key = some (pystr "ph_title")
        ∨ ∃ b, v.field_key = some b ∧ isBodyKey b = true)
    ∧ dictGet (remediate_slide slide viols entry).fields k = dictGet slide.fields k := by
  push_neg at hk
  constructor
  · intro v hv
    rcases (validate_slide_spec slide entry v hv).2 with ⟨hf, _⟩ | ⟨b, hb, hf, _⟩
    · exact Or.inl hf
    · exact Or.inr ⟨b, hf, hb⟩
  · have : (remediate_slide slide viols entry).fields
        = (remediate_core slide viols entry).1 := by
      simp [remediate_slide]
    rw [this]
    exact remediate_core_frame slide viols entry k hk.1
      (by simpa using hk.2)

/-- C10 (witness): concrete instantiation at a key (`"other"`) that is
neither the title key nor a body key. -/
theorem c10_witness :
    (∀ v ∈ validate_slide slideTwoBullets entrySmallBody,
        v.field_key = some (pystr "ph_title")
        ∨ ∃ b, v.field_key = some b ∧ isBodyKey b = true)
    ∧ dictGet (remediate_slide slideTwoBullets
        (validate_slide slideTwoBullets entrySmallBody) entrySmallBody).fields
        (pystr "other")
        = dictGet slideTwoBullets.fields (pystr "other") :=
  c10_key_name_classification slideTwoBullets entrySmallBody
    (validate_slide slideTwoBullets entrySmallBody) (pystr "other") (by decide)

/-! ## C3: unknown layouts — advisory in preflight, fatal in rendering -/

theorem render_slides_error (cfg : RendererCfg) (tpl : Template)
    (cat : List (PyStr × CatalogEntry)) (ss : List DeckSlide) (s : DeckSlide)
    (hmem : s ∈ ss) (hunk : dictGet cat s.layout_id = Option.none) :
    ∀ n m, ∃ e, render_slides cfg tpl cat ss n m = .error e := by
  induction ss with
  | nil => cases hmem
  | cons s0 rest ih =>
    intro n m
    rcases List.mem_cons.mp hmem with rfl | hmem'
    · refine ⟨pystr "Unknown layout_id: " ++ s.layout_id, ?_⟩
      simp [render_slides, render_slide, hunk]
    · cases hr : render_slide cfg tpl cat n s0 with
      | error e => exact ⟨e, by simp [render_slides, hr]⟩
      | ok entry =>
        obtain ⟨e, he⟩ := ih hmem' (n + 1) (dictSet m s0.slide_id entry)
        exact ⟨e, by simp [render_slides, hr, he]⟩

theorem vr_filter_unknown (cat : List (PyStr × CatalogEntry))
    (slides : List DeckSlide) (slide : DeckSlide) (hmem : slide ∈ slides)
    (hnd : (slides.map (fun s => s.slide_id)).Nodup)
    (hunk : dictGet cat slide.layout_id = Option.none) :
    ((slides.map (fun s => (process_slide cat s).1)).flatten).filter
        (fun v => v.slide_id == slide.slide_id)
      = [{ slide_id := slide.slide_id, layout_id := slide.layout_id,
           field_key := Option.none, violation_type := .BODY_TOO_DENSE,
           severity := .BLOCKING,
           recommended_action := some (pystr "Unknown layout_id: " ++ slide.layout_id) }] := by
  induction slides with
  | nil => cases hmem
  | cons s0 rest ih =>
    rw [List.map_cons, List.flatten_cons, List.filter_append]
    have hndr : (rest.map (fun s => s.slide_id)).Nodup := (List.nodup_cons.mp hnd).2
    have hhead : s0.slide_id ∉ rest.map (fun s => s.slide_id) :=
      (List.nodup_cons.mp hnd).1
    rcases List.mem_cons.mp hmem with rfl | hmem'
    · have h1 : (process_slide cat slide).1
          = [{ slide_id := slide.slide_id, layout_id := slide.layout_id,
               field_key := Option.none, violation_type := .BODY_TOO_DENSE,
               severity := .BLOCKING,
               recommended_action := some (pystr "Unknown layout_id: " ++ slide.layout_id) }] := by
        simp [process_slide, hunk]
      rw [h1]
      have h3 : ((rest.map (fun s => (process_slide cat s).1)).flatten).filter
          (fun v => v.slide_id == slide.slide_id) = [] := by
        apply List.filter_eq_nil_iff.mpr
        intro v hv
        simp only [List.mem_flatten, List.mem_map] at hv
        obtain ⟨l, ⟨s', hs', rfl⟩, hvl⟩ := hv
        have hvid := process_slide_slide_id cat s' v hvl
        simp only [beq_iff_eq, hvid]
        intro hb
        exact hhead (by rw [← hb]; exact List.mem_map_of_mem _ hs')
      rw [h3]
      simp
    · have h1 : ((process_slide cat s0).1).filter
          (fun v => v.slide_id == slide.slide_id) = [] := by
        apply List.filter_eq_nil_iff.mpr
        intro v hv
        have hvid := process_slide_slide_id cat s0 v hv
        simp only [beq_iff_eq, hvid]
        intro hb
        exact hhead (by rw [hb]; exact List.mem_map_of_mem _ hmem')
      rw [h1, ih hmem' hndr]
      simp

/-- C3: a slide whose `layout_id` is absent from the catalog produces, in
preflight, exactly one violation for that slide — BLOCKING, carrying the
unknown id in its recommended action — while the slide itself passes through
unmodified at its position and the rest of the batch is still processed
(the output deck keeps every slide); whereas `Renderer.render` on any deck
containing such a slide aborts with an error and produces no document (the
model returns no RenderMap, and the Python code only saves after the loop). -/
theorem c3_unknown_layout_asymmetry (deck : DeckIR) (cat : List (PyStr × CatalogEntry))
    (slide : DeckSlide) (hmem : slide ∈ deck.slides)
    (hnd : (deck.slides.map (fun s => s.slide_id)).Nodup)
    (hunk : dictGet cat slide.layout_id = Option.none) :
    ((validate_and_remediate deck cat).2.violations.filter
        (fun v => v.slide_id == slide.slide_id)
      = [{ slide_id := slide.slide_id, layout_id := slide.layout_id,
           field_key := Option.none, violation_type := .BODY_TOO_DENSE,
           severity := .BLOCKING,
           recommended_action := some (pystr "Unknown layout_id: " ++ slide.layout_id) }])
    ∧ (∀ i, deck.slides.get? i = some slide →
        (validate_and_remediate deck cat).1.slides.get? i = some slide)
    ∧ (validate_and_remediate deck cat).1.slides.length = deck.slides.length
    ∧ (∀ cfg tpl, ∃ e, render cfg tpl cat deck = .error e) := by
  refine ⟨vr_filter_unknown cat deck.slides slide hmem hnd hunk, ?_, ?_, ?_⟩
  · intro i hi
    show ((deck.slides.map (fun s => (process_slide cat s).2)).get? i) = some slide
    rw [List.get?_map, hi]
    simp [process_slide, hunk]
  · show (deck.slides.map (fun s => (process_slide cat s).2)).length = deck.slides.length
    exact List.length_map _ _
  · intro cfg tpl
    exact render_slides_error cfg tpl cat deck.slides slide hmem hunk 0 []

/-- C3 (witness): `deckNoLayout` against the empty catalog — the concrete
report carries exactly the one BLOCKING violation and the concrete render
errors out. -/
theorem c3_witness :
    ((validate_and_remediate deckNoLayout []).2.violations.filter
        (fun v => v.slide_id == slideNoLayout.slide_id)
      = [{ slide_id := slideNoLayout.slide_id, layout_id := slideNoLayout.layout_id,
           field_key := Option.none, violation_type := .BODY_TOO_DENSE,
           severity := .BLOCKING,
           recommended_action := some (pystr "Unknown layout_id: "
             ++ slideNoLayout.layout_id) }])
    ∧ (∃ e, render {} {} [] deckNoLayout = .error e) :=
  ⟨(c3_unknown_layout_asymmetry deckNoLayout [] slideNoLayout (by decide) (by decide)
      (by decide)).1,
   (c3_unknown_layout_asymmetry deckNoLayout [] slideNoLayout (by decide) (by decide)
      (by decide)).2.2.2 {} {}⟩

/-! ## C9: drift errors for unresolvable structural coordinates -/

/-- C9 (counterexample): in a catalog whose second entry reuses the id
`"lay"` *and* carries an out-of-range master index, the validator reports
only the duplicate-id error — no returned error string contains the phrase
"missing in template", refuting the claim for every catalog entry with
unresolvable coordinates. -/
theorem c9_counterexample :
    catDupBadCoords.get? 1
      = some { layout_id := some (pystr "lay"), master_index := some 5,
               layout_index := some 0 }
    ∧ coords_missing tplOne
        { layout_id := some (pystr "lay"), master_index := some 5,
          layout_index := some 0 } = true
    ∧ validate_template_catalog tplOne catDupBadCoords
        = [pystr "Duplicate layout_id in catalog: lay"]
    ∧ ∀ msg ∈ validate_template_catalog tplOne catDupBadCoords,
        ¬ ∃ a b, msg = a ++ pystr "missing in template" ++ b := by
  refine ⟨by decide, by decide, by decide, ?_⟩
  intro msg hmem
  have heq : validate_template_catalog tplOne catDupBadCoords
      = [pystr "Duplicate layout_id in catalog: lay"] := by decide
  rw [heq] at hmem
  have hmsg : msg = pystr "Duplicate layout_id in catalog: lay" := by simpa using hmem
  subst hmsg
  rintro ⟨a, b, hab⟩
  exact ne_decomp_of_containsSub_false _ _ (by decide) a b hab

theorem drift_go_suffix (tpl : Template) (entries : List CatalogEntry) :
    ∀ errors seen, ∃ suffix, drift_go tpl entries errors seen = errors ++ suffix := by
  induction entries with
  | nil => intro errors seen; exact ⟨[], by simp [drift_go]⟩
  | cons e rest ih =>
    intro errors seen
    simp only [drift_go]
    split
    · obtain ⟨suf, hs⟩ := ih (errors ++ [pystr "Catalog entry missing layout_id"]) seen
      exact ⟨_, by rw [hs, List.append_assoc]⟩
    · split
      · obtain ⟨suf, hs⟩ := ih
          (errors ++ [pystr "Duplicate layout_id in catalog: " ++ e.layout_id.getD []]) seen
        exact ⟨_, by rw [hs, List.append_assoc]⟩
      · obtain ⟨suf, hs⟩ := ih
          (errors ++ drift_entry_errors tpl (e.layout_id.getD []) e)
          (seen ++ [e.layout_id.getD []])
        exact ⟨_, by rw [hs, List.append_assoc]⟩

theorem mem_drift_go_of_mem (tpl : Template) (entries : List CatalogEntry)
    (errors seen : List PyStr) (msg : PyStr) (h : msg ∈ errors) :
    msg ∈ drift_go tpl entries errors seen := by
  obtain ⟨suf, hs⟩ := drift_go_suffix tpl entries errors seen
  rw [hs]
  exact List.mem_append_left _ h

theorem drift_entry_errors_missing (tpl : Template) (lid : PyStr)
    (entry : CatalogEntry) (hbad : coords_missing tpl entry = true) :
    ∃ msg ∈ drift_entry_errors tpl lid entry,
      (∃ a b, msg = a ++ lid ++ b)
      ∧ (∃ a b, msg = a ++ pystr " missing in template: " ++ b) := by
  have hsplit : pystr " missing in template: master_index="
      = pystr " missing in template: " ++ pystr "master_index=" := by decide
  unfold coords_missing at hbad
  unfold drift_entry_errors
  cases hmi : entry.master_index with
  | none =>
    refine ⟨_, List.mem_cons_self _ _,
      ⟨pystr "Layout ",
       pystr " missing in template: master_index=" ++ optIntChars Option.none,
       by simp [List.append_assoc]⟩,
      ⟨pystr "Layout " ++ lid,
       pystr "master_index=" ++ optIntChars Option.none, ?_⟩⟩
    rw [hsplit]
    simp [List.append_assoc]
  | some mi =>
    rw [hmi] at hbad
    simp only [] at hbad ⊢
    cases hc : (decide (mi < 0) || decide ((tpl.masters.length : Int) ≤ mi)) with
    | true =>
      rw [if_pos (Eq.refl true)]
      refine ⟨_, List.mem_cons_self _ _,
        ⟨pystr "Layout ",
         pystr " missing in template: master_index=" ++ optIntChars (some mi),
         by simp [List.append_assoc]⟩,
        ⟨pystr "Layout " ++ lid,
         pystr "master_index=" ++ optIntChars (some mi), ?_⟩⟩
      rw [hsplit]
      simp [List.append_assoc]
    | false =>
      rw [if_neg (by simp : ¬(false = true))]
      rw [if_neg (by simp [hc])] at hbad
      cases hm : tpl.masters.get? mi.toNat with
      | none =>
        refine ⟨_, List.mem_cons_self _ _,
          ⟨pystr "Layout ",
           pystr " missing in template: master_index=" ++ optIntChars (some mi),
           by simp [List.append_assoc]⟩,
          ⟨pystr "Layout " ++ lid,
           pystr "master_index=" ++ optIntChars (some mi), ?_⟩⟩
        rw [hsplit]
        simp [List.append_assoc]
      | some master =>
        simp only []
        rw [hm] at hbad
        have hlb : (match entry.layout_index with
            | Option.none => true
            | some li => decide (li < 0) || decide ((master.layouts.length : Int) ≤ li))
            = true := by
          cases hli : entry.layout_index with
          | none => rfl
          | some li =>
            rw [hli] at hbad
            simpa using hbad
        rw [if_pos hlb]
        refine ⟨_, List.mem_cons_self _ _,
          ⟨pystr "Layout ",
           pystr " missing in template: master_index=" ++ optIntChars (some mi)
             ++ pystr ", layout_index=" ++ optIntChars entry.layout_index,
           by simp [List.append_assoc]⟩,
          ⟨pystr "Layout " ++ lid,
           pystr "master_index=" ++ optIntChars (some mi)
             ++ pystr ", layout_index=" ++ optIntChars entry.layout_index, ?_⟩⟩
        rw [hsplit]
        simp [List.append_assoc]


theorem drift_go_missing (tpl : Template) (layouts : List CatalogEntry) :
    ∀ (i : Nat) (entry : CatalogEntry) (lid : PyStr) (errors seen : List PyStr),
    layouts.get? i = some entry → entry.layout_id = some lid → lid ≠ [] →
    (∀ j e', j < i → layouts.get? j = some e' → e'.layout_id ≠ some lid) →
    lid ∉ seen →
    coords_missing tpl entry = true →
    ∃ msg ∈ drift_go tpl layouts errors seen,
      (∃ a b, msg = a ++ lid ++ b)
      ∧ (∃ a b, msg = a ++ pystr " missing in template: " ++ b) := by
  induction layouts with
  | nil => intro i entry lid errors seen hi; simp at hi
  | cons e0 rest ih =>
    intro i entry lid errors seen hi hid hne hfresh hseen hbad
    cases i with
    | zero =>
      have he0 : e0 = entry := by simpa using hi
      subst he0
      simp only [drift_go]
      rw [if_neg (by simp [layoutIdMissing, hid, List.isEmpty_iff, hne])]
      have hgd : e0.layout_id.getD [] = lid := by rw [hid]; rfl
      rw [if_neg (by rw [hgd]; simpa using hseen)]
      obtain ⟨msg, hmem, hprops⟩ :=
        drift_entry_errors_missing tpl lid e0 hbad
      refine ⟨msg, ?_, hprops⟩
      apply mem_drift_go_of_mem
      rw [hgd]
      exact List.mem_append_right _ hmem
    | succ i' =>
      have hi' : rest.get? i' = some entry := by simpa using hi
      have hfresh' : ∀ j e', j < i' → rest.get? j = some e' → e'.layout_id ≠ some lid :=
        fun j e' hj hg => hfresh (j + 1) e' (by omega) (by simpa using hg)
      have hhead : e0.layout_id ≠ some lid :=
        hfresh 0 e0 (Nat.succ_pos _) (by simp)
      simp only [drift_go]
      split
      · exact ih i' entry lid _ seen hi' hid hne hfresh' hseen hbad
      · split
        · exact ih i' entry lid _ seen hi' hid hne hfresh' hseen hbad
        · next hmiss _ =>
          apply ih i' entry lid _ _ hi' hid hne hfresh'
          · intro hmem
            rcases List.mem_append.mp hmem with h1 | h1
            · exact hseen h1
            · have hgd : e0.layout_id.getD [] = lid := (List.mem_singleton.mp h1).symm
              cases h0 : e0.layout_id with
              | none => rw [h0] at hmiss; simp [layoutIdMissing] at hmiss
              | some s =>
                rw [h0] at hgd
                exact hhead (by rw [h0]; simpa using congrArg some hgd)
          · exact hbad

/-- C9 (amended): for every catalog entry whose `layout_id` is present,
non-empty and not already claimed by an earlier entry, unresolvable
structural coordinates produce an error string in the validator's returned
list that contains both the entry's layout id and the phrase " missing in
template: " — and the validator communicates this as a returned list of
strings (its type is `List PyStr`; it raises nothing).  Entries whose id
duplicates an earlier entry only get the duplicate-id error (the
counterexample), and entries without a usable id only get the missing-id
error. -/
theorem c9_amended (tpl : Template) (layouts : List CatalogEntry)
    (i : Nat) (entry : CatalogEntry) (lid : PyStr)
    (hi : layouts.get? i = some entry)
    (hid : entry.layout_id = some lid) (hne : lid ≠ [])
    (hfresh : ∀ j e', j < i → layouts.get? j = some e' → e'.layout_id ≠ some lid)
    (hbad : coords_missing tpl entry = true) :
    ∃ msg ∈ validate_template_catalog tpl layouts,
      (∃ a b, msg = a ++ lid ++ b)
      ∧ (∃ a b, msg = a ++ pystr " missing in template: " ++ b) :=
  drift_go_missing tpl layouts i entry lid [] [] hi hid hne hfresh
    (by simp) hbad

/-- C9 (witness): the single-entry catalog `catSoloBadCoords` (fresh id,
master index 5 out of range) concretely yields such an error message. -/
theorem c9_amended_witness :
    ∃ msg ∈ validate_template_catalog tplOne catSoloBadCoords,
      (∃ a b, msg = a ++ pystr "solo" ++ b)
      ∧ (∃ a b, msg = a ++ pystr " missing in template: " ++ b) :=
  c9_amended tplOne catSoloBadCoords 0
    { layout_id := some (pystr "solo"), master_index := some 5,
      layout_index := some 0 }
    (pystr "solo") (by decide) (by decide) (by decide)
    (fun j e' hj => by omega) (by decide)

/-! ## C8: the RenderMap records positions and actually-addressable keys -/

theorem render_slide_ok_spec (cfg : RendererCfg) (tpl : Template)
    (cat : List (PyStr × CatalogEntry)) (n : Nat) (s : DeckSlide)
    (entry : RenderMapEntry) (h : render_slide cfg tpl cat n s = .ok entry) :
    ∃ le layout, dictGet cat s.layout_id = some le
      ∧ resolve_layout tpl le = some layout
      ∧ entry = { slide_id := s.slide_id, slide_index := n,
                  field_keys := pySortedSet (slide_field_keys layout) } := by
  unfold render_slide at h
  split at h
  · exact Except.noConfusion h
  next le hle =>
    split at h
    · exact Except.noConfusion h
    next mi hmi =>
      split at h
      · exact Except.noConfusion h
      next li hli =>
        split at h
        · exact Except.noConfusion h
        next master hmaster =>
          split at h
          · exact Except.noConfusion h
          next layout hlayout =>
            simp only [] at h
            split at h
            · exact Except.noConfusion h
            next u hassets =>
              refine ⟨le, layout, hle, ?_, (Except.ok.inj h).symm⟩
              unfold resolve_layout
              rw [hmi, hli]
              simp only []
              rw [hmaster]
              exact hlayout

theorem render_slides_ok_lookup (cfg : RendererCfg) (tpl : Template)
    (cat : List (PyStr × CatalogEntry)) (ss : List DeckSlide) :
    ∀ (n : Nat) (m rm : List (PyStr × RenderMapEntry)),
    render_slides cfg tpl cat ss n m = .ok rm →
    ∀ id, id ∉ ss.map (fun s => s.slide_id) → dictGet rm id = dictGet m id := by
  induction ss with
  | nil =>
    intro n m rm h id _
    cases h
    rfl
  | cons s0 rest ih =>
    intro n m rm h id hid
    simp only [render_slides] at h
    split at h
    · exact Except.noConfusion h
    next entry hent =>
      simp only [List.map_cons, List.mem_cons, not_or] at hid
      rw [ih _ _ _ h id (by simpa using hid.2)]
      exact dictGet_dictSet_ne _ _ _ _ hid.1

theorem render_slides_ok_get (cfg : RendererCfg) (tpl : Template)
    (cat : List (PyStr × CatalogEntry)) (ss : List DeckSlide) :
    ∀ (i : Nat) (s : DeckSlide) (n : Nat) (m rm : List (PyStr × RenderMapEntry)),
    render_slides cfg tpl cat ss n m = .ok rm →
    ss.get? i = some s →
    (ss.map (fun x => x.slide_id)).Nodup →
    ∃ entry, render_slide cfg tpl cat (n + i) s = .ok entry
      ∧ dictGet rm s.slide_id = some entry := by
  induction ss with
  | nil => intro i s n m rm h hi; simp at hi
  | cons s0 rest ih =>
    intro i s n m rm h hi hnd
    simp only [render_slides] at h
    split at h
    · exact Except.noConfusion h
    next entry0 hent =>
      cases i with
      | zero =>
        have hs : s0 = s := by simpa using hi
        subst hs
        refine ⟨entry0, by simpa using hent, ?_⟩
        rw [render_slides_ok_lookup cfg tpl cat rest _ _ rm h s0.slide_id
          (List.nodup_cons.mp hnd).1]
        exact dictGet_dictSet_self _ _ _
      | succ i' =>
        have hi' : rest.get? i' = some s := by simpa using hi
        obtain ⟨entry, he, hg⟩ :=
          ih i' s (n + 1) _ rm h hi' (List.nodup_cons.mp hnd).2
        refine ⟨entry, ?_, hg⟩
        rw [show n + (i' + 1) = (n + 1) + i' by omega]
        exact he

/-- C8: for a successfully rendered deck (with unique slide ids), the
RenderMap maps each slide's id to an entry whose `slide_index` is that
slide's position in deck order, and whose `field_keys` is the sorted,
duplicate-free set of the keys actually resolvable on the instantiated
layout's shapes (`slide_field_keys`, which walks the instantiated slide's
placeholders and the layout's key-by-index fallback) — not the keys of the
slide's own `fields` map. -/
theorem c8_render_map (cfg : RendererCfg) (tpl : Template)
    (cat : List (PyStr × CatalogEntry)) (deck : DeckIR)
    (rm : List (PyStr × RenderMapEntry))
    (hok : render cfg tpl cat deck = .ok rm)
    (i : Nat) (slide : DeckSlide) (hi : deck.slides.get? i = some slide)
    (hnd : (deck.slides.map (fun s => s.slide_id)).Nodup) :
    ∃ le layout, dictGet cat slide.layout_id = some le
      ∧ resolve_layout tpl le = some layout
      ∧ dictGet rm slide.slide_id
          = some { slide_id := slide.slide_id, slide_index := i,
                   field_keys := pySortedSet (slide_field_keys layout) } := by
  obtain ⟨entry, he, hg⟩ :=
    render_slides_ok_get cfg tpl cat deck.slides i slide 0 [] rm hok hi hnd
  obtain ⟨le, layout, h1, h2, h3⟩ :=
    render_slide_ok_spec cfg tpl cat (0 + i) slide entry he
  refine ⟨le, layout, h1, h2, ?_⟩
  rw [hg, h3]
  simp

/-- C8 (witness): rendering `deckRender` against `tplOne` — the map entry
for `r1` sits at index 0 and carries `["ph_body", "ph_title"]`, the keys
addressable on the instantiated layout (not the requested `ph_extra`). -/
theorem c8_render_map_witness :
    ∃ le layout, dictGet catTpl slideRender.layout_id = some le
      ∧ resolve_layout tplOne le = some layout
      ∧ dictGet [(pystr "r1",
            { slide_id := pystr "r1", slide_index := 0,
              field_keys := [pystr "ph_body", pystr "ph_title"]
              : RenderMapEntry })] slideRender.slide_id
          = some { slide_id := slideRender.slide_id, slide_index := 0,
                   field_keys := pySortedSet (slide_field_keys layout) } :=
  c8_render_map {} tplOne catTpl deckRender
    [(pystr "r1",
      { slide_id := pystr "r1", slide_index := 0,
        field_keys := [pystr "ph_body", pystr "ph_title"] })]
    (by rfl) 0 slideRender (by decide) (by decide)

/-! ## C6: the preflight engine never mutates its input

Over the heap embedding: every write performed by
`hvalidate_and_remediate` targets an object allocated after entry
(`copy.deepcopy` copies, slicing/comprehensions allocate, the pops mutate
only the copy), so every pre-existing address keeps its contents, and a
remediated slide's dict lives at a fresh address. -/

theorem hget_lt_length (h : Heap) (a : Nat) (o : HObj) (hg : hget h a = some o) :
    a < h.length := by
  by_contra hc
  push_neg at hc
  rw [hget, List.get?_eq_none.mpr hc] at hg
  exact Option.noConfusion hg

theorem dictGet_mem {β : Type} (d : List (PyStr × β)) (k : PyStr) (v : β)
    (h : dictGet d k = some v) : ∃ p ∈ d, p.2 = v := by
  unfold dictGet at h
  cases hf : d.find? (fun p => p.1 == k) with
  | none => rw [hf] at h; exact Option.noConfusion h
  | some p =>
    rw [hf] at h
    exact ⟨p, List.mem_of_find?_eq_some hf, by injection h⟩

/-- Heap evolution: the heap only grows and every address below `n` keeps
its contents. -/
structure HeapEvolves (n : Nat) (h h' : Heap) : Prop where
  le : h.length ≤ h'.length
  pres : ∀ a, a < n → hget h' a = hget h a

theorem HeapEvolves.rfl (n : Nat) (h : Heap) : HeapEvolves n h h :=
  ⟨Nat.le_refl _, fun _ _ => Eq.refl _⟩

theorem HeapEvolves.comp {n : Nat} {h1 h2 h3 : Heap}
    (a : HeapEvolves n h1 h2) (b : HeapEvolves n h2 h3) : HeapEvolves n h1 h3 :=
  ⟨Nat.le_trans a.le b.le, fun x hx => (b.pres x hx).trans (a.pres x hx)⟩

theorem HeapEvolves.mono {n m : Nat} {h h' : Heap} (e : HeapEvolves m h h')
    (hnm : n ≤ m) : HeapEvolves n h h' :=
  ⟨e.le, fun a ha => e.pres a (by omega)⟩

theorem evolves_halloc (n : Nat) (h : Heap) (o : HObj) (hn : n ≤ h.length) :
    HeapEvolves n h (halloc h o).1 := by
  refine ⟨by simp [halloc], fun a ha => ?_⟩
  show (h ++ [o]).get? a = h.get? a
  exact List.get?_append (by omega)

theorem evolves_hset (n : Nat) (h : Heap) (addr : Nat) (o : HObj) (hn : n ≤ addr) :
    HeapEvolves n h (hset h addr o) := by
  refine ⟨by simp [hset], fun a ha => ?_⟩
  show (h.set addr o).get? a = h.get? a
  exact List.get?_set_ne _ _ (by omega)

theorem evolves_hDictSet (n : Nat) (h : Heap) (a : Nat) (k : PyStr)
    (v : HFieldValue) (hn : n ≤ a) : HeapEvolves n h (hDictSet h a k v) := by
  unfold hDictSet
  split
  · exact evolves_hset n h a _ hn
  · exact HeapEvolves.rfl n h

/-- The dict at address `a` was allocated at or after the watermark `n`, and
every list it references was as well. -/
def DictFresh (n : Nat) (h : Heap) (a : Nat) : Prop :=
  n ≤ a ∧ ∃ entries, hget h a = some (.fieldsObj entries)
    ∧ ∀ p ∈ entries, ∀ b, p.2 = HFieldValue.listRef b → n ≤ b

theorem DictFresh.halloc {n : Nat} {h : Heap} {a : Nat} (d : DictFresh n h a)
    (o : HObj) : DictFresh n (PptGen.halloc h o).1 a := by
  obtain ⟨hna, entries, hg, hrefs⟩ := d
  refine ⟨hna, entries, ?_, hrefs⟩
  show (h ++ [o]).get? a = _
  rw [List.get?_append (hget_lt_length h a _ hg)]
  exact hg

theorem DictFresh.hset {n : Nat} {h : Heap} {a : Nat} (d : DictFresh n h a)
    (addr : Nat) (o : HObj) (hne : addr ≠ a) :
    DictFresh n (PptGen.hset h addr o) a := by
  obtain ⟨hna, entries, hg, hrefs⟩ := d
  refine ⟨hna, entries, ?_, hrefs⟩
  show (h.set addr o).get? a = _
  rw [List.get?_set_ne _ _ hne]
  exact hg

theorem DictFresh.hDictSet {n : Nat} {h : Heap} {a : Nat} (d : DictFresh n h a)
    (k : PyStr) (v : HFieldValue)
    (hv : ∀ b, v = HFieldValue.listRef b → n ≤ b) :
    DictFresh n (PptGen.hDictSet h a k v) a := by
  obtain ⟨hna, entries, hg, hrefs⟩ := d
  unfold PptGen.hDictSet
  rw [hg]
  simp only []
  refine ⟨hna, dictSet entries k v, ?_, ?_⟩
  · show (h.set a _).get? a = _
    rw [List.get?_set_eq_of_lt _ (hget_lt_length h a _ hg)]
  · intro p hp b hpb
    rcases mem_dictSet entries k v p hp with rfl | hmem
    · exact hv b hpb
    · exact hrefs p hmem b hpb

/-- The address a stored `listRef` points to is at or above the dict's
watermark. -/
theorem DictFresh.ref_ge {n : Nat} {h : Heap} {a : Nat} (d : DictFresh n h a)
    (k : PyStr) (la : Nat)
    (hk : (hDictGet h a k).getD (.text []) = HFieldValue.listRef la) : n ≤ la := by
  obtain ⟨hna, entries, hg, hrefs⟩ := d
  unfold hDictGet at hk
  rw [hg] at hk
  simp only [] at hk
  cases hdg : dictGet entries k with
  | none => rw [hdg] at hk; exact absurd hk (by simp)
  | some w =>
    rw [hdg] at hk
    obtain ⟨p, hp, hpv⟩ := dictGet_mem entries k w hdg
    exact hrefs p hp la (by rw [hpv]; simpa using hk)

/-- A `listRef` target holding a bullets object is never the dict itself. -/
theorem DictFresh.ref_ne {n : Nat} {h : Heap} {a la : Nat} (d : DictFresh n h a)
    (items : List PyStr) (hla : hget h la = some (.bulletsObj items)) : la ≠ a := by
  obtain ⟨_, entries, hg, _⟩ := d
  intro e
  rw [e, hg] at hla
  exact HObj.noConfusion (Option.some.inj hla)

theorem hremediate_step1_spec (mb : Nat) (k : PyStr)
    (fv : List ValidationViolation) (n a : Nat) (h : Heap)
    (hn : n ≤ h.length) (d : DictFresh n h a) :
    HeapEvolves n h (hremediate_step1 mb k fv a h).1
    ∧ DictFresh n (hremediate_step1 mb k fv a h).1 a := by
  unfold hremediate_step1
  split
  · split
    · split
      · refine ⟨(evolves_halloc n h _ hn).comp (evolves_hDictSet n _ a _ _ d.1), ?_⟩
        refine (d.halloc _).hDictSet k _ ?_
        intro b hb
        have : (halloc h (HObj.bulletsObj _)).2 = b := HFieldValue.listRef.inj hb
        rw [← this]
        exact hn
      · exact ⟨HeapEvolves.rfl n h, d⟩
    · exact ⟨HeapEvolves.rfl n h, d⟩
  · exact ⟨HeapEvolves.rfl n h, d⟩

theorem hremediate_step2_spec (mw : Nat) (k : PyStr)
    (fv : List ValidationViolation) (n a : Nat) (value : HFieldValue) (h : Heap)
    (hn : n ≤ h.length) (d : DictFresh n h a) :
    HeapEvolves n h (hremediate_step2 mw k fv a value h)
    ∧ DictFresh n (hremediate_step2 mw k fv a value h) a := by
  unfold hremediate_step2
  split
  · split
    · split
      · refine ⟨(evolves_halloc n h _ hn).comp (evolves_hDictSet n _ a _ _ d.1), ?_⟩
        refine (d.halloc _).hDictSet k _ ?_
        intro b hb
        have : (halloc h (HObj.bulletsObj _)).2 = b := HFieldValue.listRef.inj hb
        rw [← this]
        exact hn
      · exact ⟨HeapEvolves.rfl n h, d⟩
    · refine ⟨evolves_hDictSet n h a _ _ d.1, d.hDictSet k _ ?_⟩
      intro b hb
      exact HFieldValue.noConfusion hb
  · exact ⟨HeapEvolves.rfl n h, d⟩

theorem hremediate_step3_spec (mt : Nat) (k : PyStr) (n a : Nat) (h : Heap)
    (hn : n ≤ h.length) (d : DictFresh n h a) :
    HeapEvolves n h (hremediate_step3 mt k a h).1
    ∧ DictFresh n (hremediate_step3 mt k a h).1 a := by
  unfold hremediate_step3
  split
  next la hla =>
    split
    next items hitems =>
      split
      · split
        · -- in-place pop: write the same list object, then rebind the slot
          have hlan : n ≤ la := d.ref_ge k la hla
          have hlane : la ≠ a := d.ref_ne items hitems
          refine ⟨(evolves_hset n h la _ hlan).comp
            (evolves_hDictSet n _ a _ _ d.1), ?_⟩
          refine (d.hset la _ hlane).hDictSet k _ ?_
          intro b hb
          rw [← HFieldValue.listRef.inj hb]
          exact hlan
        · split
          · refine ⟨(evolves_halloc n h _ hn).comp (evolves_hDictSet n _ a _ _ d.1), ?_⟩
            refine (d.halloc _).hDictSet k _ ?_
            intro b hb
            have : (halloc h (HObj.bulletsObj _)).2 = b := HFieldValue.listRef.inj hb
            rw [← this]
            exact hn
          · exact ⟨HeapEvolves.rfl n h, d⟩
      · exact ⟨HeapEvolves.rfl n h, d⟩
    next => exact ⟨HeapEvolves.rfl n h, d⟩
  next s hs =>
    split
    · refine ⟨evolves_hDictSet n h a _ _ d.1, d.hDictSet k _ ?_⟩
      intro b hb
      exact HFieldValue.noConfusion hb
    · exact ⟨HeapEvolves.rfl n h, d⟩

theorem hremediate_body_field_spec (mb mw mt : Nat) (k : PyStr)
    (fv : List ValidationViolation) (n a : Nat) (h : Heap)
    (hn : n ≤ h.length) (d : DictFresh n h a) :
    HeapEvolves n h (hremediate_body_field mb mw mt k fv a h).1
    ∧ DictFresh n (hremediate_body_field mb mw mt k fv a h).1 a := by
  unfold hremediate_body_field
  split
  · exact ⟨HeapEvolves.rfl n h, d⟩
  · obtain ⟨e1, d1⟩ := hremediate_step1_spec mb k fv n a h hn d
    obtain ⟨e2, d2⟩ := hremediate_step2_spec mw k fv n a
      (hremediate_step1 mb k fv a h).2.1 (hremediate_step1 mb k fv a h).1
      (Nat.le_trans hn e1.le) d1
    obtain ⟨e3, d3⟩ := hremediate_step3_spec mt k n a _
      (Nat.le_trans (Nat.le_trans hn e1.le) e2.le) d2
    exact ⟨(e1.comp e2).comp e3, d3⟩

theorem hremediate_title_spec (viols : List ValidationViolation)
    (mtc : Nat) (n a : Nat) (h : Heap) (d : DictFresh n h a) :
    HeapEvolves n h (hremediate_title viols mtc a h)
    ∧ DictFresh n (hremediate_title viols mtc a h) a := by
  unfold hremediate_title
  split
  · split
    · refine ⟨evolves_hDictSet n h a _ _ d.1, d.hDictSet _ _ ?_⟩
      intro b hb
      exact HFieldValue.noConfusion hb
    · exact ⟨HeapEvolves.rfl n h, d⟩
  · exact ⟨HeapEvolves.rfl n h, d⟩

theorem foldl_heap_spec (f : (Heap × List PyStr) → PyStr → Heap × List PyStr)
    (ks : List PyStr) (n a : Nat)
    (hstep : ∀ acc k, k ∈ ks → n ≤ acc.1.length → DictFresh n acc.1 a →
      HeapEvolves n acc.1 (f acc k).1 ∧ DictFresh n (f acc k).1 a) :
    ∀ acc, n ≤ acc.1.length → DictFresh n acc.1 a →
      HeapEvolves n acc.1 (ks.foldl f acc).1 ∧ DictFresh n (ks.foldl f acc).1 a := by
  induction ks with
  | nil => intro acc hn d; exact ⟨HeapEvolves.rfl n acc.1, d⟩
  | cons x xs ih =>
    intro acc hn d
    rw [List.foldl_cons]
    obtain ⟨e1, d1⟩ := hstep acc x (List.mem_cons_self x xs) hn d
    obtain ⟨e2, d2⟩ := ih (fun acc' k' hk' => hstep acc' k' (List.mem_cons_of_mem _ hk'))
      (f acc x) (Nat.le_trans hn e1.le) d1
    exact ⟨e1.comp e2, d2⟩

theorem deepcopy_value_spec (n : Nat) (h : Heap) (v : HFieldValue)
    (hn : n ≤ h.length) :
    HeapEvolves n h (deepcopy_value h v).1
    ∧ ∀ b, (deepcopy_value h v).2 = HFieldValue.listRef b → n ≤ b := by
  unfold deepcopy_value
  split
  · exact ⟨HeapEvolves.rfl n h, fun b hb => HFieldValue.noConfusion hb⟩
  · split
    · refine ⟨evolves_halloc n h _ hn, ?_⟩
      intro b hb
      rw [← HFieldValue.listRef.inj hb]
      exact hn
    · refine ⟨evolves_halloc n h _ hn, ?_⟩
      intro b hb
      rw [← HFieldValue.listRef.inj hb]
      exact hn

theorem deepcopy_entries_spec (n : Nat) :
    ∀ (entries : List (PyStr × HFieldValue)) (h : Heap), n ≤ h.length →
    HeapEvolves n h (deepcopy_entries h entries).1
    ∧ ∀ p ∈ (deepcopy_entries h entries).2, ∀ b,
        p.2 = HFieldValue.listRef b → n ≤ b := by
  intro entries
  induction entries with
  | nil =>
    intro h hn
    exact ⟨HeapEvolves.rfl n h, by intro p hp; simp [deepcopy_entries] at hp⟩
  | cons pr rest ih =>
    intro h hn
    obtain ⟨pk, pv⟩ := pr
    obtain ⟨e1, hv1⟩ := deepcopy_value_spec n h pv hn
    obtain ⟨e2, hv2⟩ := ih (deepcopy_value h pv).1 (Nat.le_trans hn e1.le)
    unfold deepcopy_entries
    refine ⟨e1.comp e2, ?_⟩
    intro p hp b hpb
    simp only [List.mem_cons] at hp
    rcases hp with rfl | hp
    · exact hv1 b hpb
    · exact hv2 p hp b hpb

theorem deepcopy_fields_spec (n : Nat) (h : Heap) (addr : Nat) (hn : n ≤ h.length) :
    HeapEvolves n h (deepcopy_fields h addr).1
    ∧ DictFresh n (deepcopy_fields h addr).1 (deepcopy_fields h addr).2
    ∧ h.length ≤ (deepcopy_fields h addr).2 := by
  unfold deepcopy_fields
  split
  next entries heq =>
    obtain ⟨e, hrefs⟩ := deepcopy_entries_spec n entries h hn
    refine ⟨e.comp (evolves_halloc n _ _ (Nat.le_trans hn e.le)), ?_, e.le⟩
    refine ⟨Nat.le_trans hn e.le, (deepcopy_entries h entries).2, ?_, hrefs⟩
    show ((deepcopy_entries h entries).1
      ++ [HObj.fieldsObj (deepcopy_entries h entries).2]).get?
        (deepcopy_entries h entries).1.length = _
    rw [List.get?_concat_length]
  next =>
    refine ⟨evolves_halloc n h _ hn, ?_, Nat.le_refl _⟩
    refine ⟨hn, [], ?_, by intro p hp; simp at hp⟩
    show (h ++ [HObj.fieldsObj []]).get? h.length = _
    rw [List.get?_concat_length]

theorem hremediate_slide_spec (slide : HSlide) (viols : List ValidationViolation)
    (entry : CatalogEntry) (h : Heap) :
    HeapEvolves h.length h (hremediate_slide slide viols entry h).1
    ∧ h.length ≤ (hremediate_slide slide viols entry h).2.fields_addr := by
  obtain ⟨e0, d0, haddr⟩ :=
    deepcopy_fields_spec h.length h slide.fields_addr (Nat.le_refl _)
  obtain ⟨e1, d1⟩ := hremediate_title_spec viols
    (entry.constraints.max_title_chars.getD 100) h.length
    (deepcopy_fields h slide.fields_addr).2 (deepcopy_fields h slide.fields_addr).1 d0
  have hstep : ∀ (acc : Heap × List PyStr) (k : PyStr),
      k ∈ ((match hget (hremediate_title viols (entry.constraints.max_title_chars.getD 100)
              (deepcopy_fields h slide.fields_addr).2
              (deepcopy_fields h slide.fields_addr).1)
              (deepcopy_fields h slide.fields_addr).2 with
            | some (HObj.fieldsObj entries) =>
              entries.map (fun (p : PyStr × HFieldValue) => p.1)
            | _ => ([] : List PyStr)).filter isBodyKey) →
      h.length ≤ acc.1.length → DictFresh h.length acc.1
        (deepcopy_fields h slide.fields_addr).2 →
      HeapEvolves h.length acc.1
        ((hremediate_body_step (entry.constraints.max_bullets.getD 7)
          (entry.constraints.max_words_per_bullet.getD 18)
          (entry.constraints.max_total_body_chars.getD 500) viols
          (deepcopy_fields h slide.fields_addr).2 acc k)).1
      ∧ DictFresh h.length ((hremediate_body_step (entry.constraints.max_bullets.getD 7)
          (entry.constraints.max_words_per_bullet.getD 18)
          (entry.constraints.max_total_body_chars.getD 500) viols
          (deepcopy_fields h slide.fields_addr).2 acc k)).1
          (deepcopy_fields h slide.fields_addr).2 := by
    intro acc k _ hn d
    exact hremediate_body_field_spec _ _ _ k _ h.length _ acc.1 hn d
  obtain ⟨e2, _⟩ := foldl_heap_spec _ _ h.length
    (deepcopy_fields h slide.fields_addr).2 hstep
    (hremediate_title viols (entry.constraints.max_title_chars.getD 100)
      (deepcopy_fields h slide.fields_addr).2
      (deepcopy_fields h slide.fields_addr).1, ([] : List PyStr))
    (Nat.le_trans e0.le e1.le) d1
  exact ⟨(e0.comp e1).comp e2, haddr⟩

theorem hprocess_slide_spec (cat : List (PyStr × CatalogEntry)) (s : HSlide)
    (h : Heap) :
    HeapEvolves h.length h (hprocess_slide cat s h).1
    ∧ ((hprocess_slide cat s h).2.2 = s
        ∨ h.length ≤ (hprocess_slide cat s h).2.2.fields_addr) := by
  unfold hprocess_slide
  split
  · exact ⟨HeapEvolves.rfl _ h, Or.inl (Eq.refl s)⟩
  · simp only []
    split
    · exact ⟨HeapEvolves.rfl _ h, Or.inl (Eq.refl s)⟩
    · obtain ⟨e, haddr⟩ := hremediate_slide_spec s _ _ h
      exact ⟨e, Or.inr haddr⟩

theorem hvr_slides_spec (cat : List (PyStr × CatalogEntry)) (ss : List HSlide) :
    ∀ h : Heap,
    HeapEvolves h.length h (hvr_slides cat ss h).1
    ∧ (∀ i s s', ss.get? i = some s →
        (hvr_slides cat ss h).2.2.get? i = some s' →
        s' = s ∨ h.length ≤ s'.fields_addr) := by
  induction ss with
  | nil =>
    intro h
    refine ⟨HeapEvolves.rfl _ h, ?_⟩
    intro i s s' hi
    simp [hvr_slides] at hi
  | cons s0 rest ih =>
    intro h
    obtain ⟨e0, hs0⟩ := hprocess_slide_spec cat s0 h
    obtain ⟨e1, hrest⟩ := ih (hprocess_slide cat s0 h).1
    constructor
    · exact e0.comp (e1.mono e0.le)
    · intro i s s' hi hi'
      cases i with
      | zero =>
        have h1 : s0 = s := by simpa using hi
        have h2 : (hprocess_slide cat s0 h).2.2 = s' := by
          have : (hvr_slides cat (s0 :: rest) h).2.2
              = (hprocess_slide cat s0 h).2.2
                :: (hvr_slides cat rest (hprocess_slide cat s0 h).1).2.2 := rfl
          rw [this] at hi'
          simpa using hi'
        rw [← h2, ← h1]
        exact hs0
      | succ i' =>
        have hi1 : rest.get? i' = some s := by simpa using hi
        have hi2 : (hvr_slides cat rest (hprocess_slide cat s0 h).1).2.2.get? i'
            = some s' := by
          have : (hvr_slides cat (s0 :: rest) h).2.2
              = (hprocess_slide cat s0 h).2.2
                :: (hvr_slides cat rest (hprocess_slide cat s0 h).1).2.2 := rfl
          rw [this] at hi'
          simpa using hi'
        rcases hrest i' s s' hi1 hi2 with h1 | h1
        · exact Or.inl h1
        · exact Or.inr (Nat.le_trans e0.le h1)

theorem toPureSlide_pres (h h' : Heap) (s : HSlide)
    (hpres : ∀ a, a < h.length → hget h' a = hget h a)
    (hwf : hSlideWF h s = true) : toPureSlide h' s = toPureSlide h s := by
  unfold hSlideWF at hwf
  split at hwf
  next entries hg =>
    unfold toPureSlide hfields
    rw [hpres s.fields_addr (hget_lt_length h s.fields_addr _ hg), hg]
    simp only []
    have hfv : ∀ p ∈ entries, (p.1, hval h' p.2) = (p.1, hval h p.2) := by
      intro p hp
      have hpa := (List.all_eq_true.mp hwf) p hp
      cases hv : p.2 with
      | text t => simp [hval]
      | listRef b =>
        rw [hv] at hpa
        simp only [] at hpa
        unfold hval
        simp only []
        split at hpa
        next items hb =>
          rw [hpres b (hget_lt_length h b _ hb), hb]
        next => exact absurd hpa (by simp)
    rw [List.map_congr_left hfv]
  next => exact absurd hwf (by simp)

/-- C6: the preflight engine never mutates its input.  In the heap
embedding, running `validate_and_remediate` leaves every pre-existing heap
address unchanged — so every input slide still denotes exactly the fields,
notes and asset refs it did before the call — and every slide record in the
returned deck is either the untouched input object (passed through) or a
new record whose fields dict lives at a freshly allocated address, distinct
from every input object; the returned `HDeck` itself is a newly constructed
record.  This is the deep-copy-then-patch discipline of `_remediate_slide`
and the rebuild in `validate_and_remediate`. -/
theorem c6_no_input_mutation (h : Heap) (deck : HDeck)
    (cat : List (PyStr × CatalogEntry))
    (hwf : ∀ s ∈ deck.slides, hSlideWF h s = true) :
    (∀ a, a < h.length →
        hget (hvalidate_and_remediate deck cat h).1 a = hget h a)
    ∧ (∀ s ∈ deck.slides,
        toPureSlide (hvalidate_and_remediate deck cat h).1 s = toPureSlide h s)
    ∧ (∀ i s s', deck.slides.get? i = some s →
        (hvalidate_and_remediate deck cat h).2.1.slides.get? i = some s' →
        s' = s ∨ h.length ≤ s'.fields_addr) := by
  obtain ⟨e, hpos⟩ := hvr_slides_spec cat deck.slides h
  refine ⟨e.pres, ?_, ?_⟩
  · intro s hs
    exact toPureSlide_pres h _ s e.pres (hwf s hs)
  · intro i s s' hi hi'
    exact hpos i s s' hi hi'

/-- C6 (witness): the concrete two-bullet heap — after the call, both
pre-existing objects are unchanged, the input slide still denotes its
original fields, and the output slide's dict lives at the fresh address 3
(the input heap had length 2). -/
theorem c6_no_input_mutation_witness :
    hget (hvalidate_and_remediate hdeckTwoBullets catSmallBody heapTwoBullets).1 0
      = hget heapTwoBullets 0
    ∧ hget (hvalidate_and_remediate hdeckTwoBullets catSmallBody heapTwoBullets).1 1
      = hget heapTwoBullets 1
    ∧ toPureSlide (hvalidate_and_remediate hdeckTwoBullets catSmallBody heapTwoBullets).1
        hslideTwoBullets = toPureSlide heapTwoBullets hslideTwoBullets
    ∧ ({ slide_id := pystr "s1", layout_id := pystr "content", fields_addr := 3,
         speaker_notes := .text (pystr "[REMEDIATION OVERFLOW]\n[Moved from ph_body]: b")
         : HSlide } = hslideTwoBullets
        ∨ heapTwoBullets.length
            ≤ ({ slide_id := pystr "s1", layout_id := pystr "content", fields_addr := 3,
                 speaker_notes := .text (pystr "[REMEDIATION OVERFLOW]\n[Moved from ph_body]: b")
                 : HSlide }).fields_addr) :=
  ⟨(c6_no_input_mutation heapTwoBullets hdeckTwoBullets catSmallBody (by decide)).1
      0 (by decide),
   (c6_no_input_mutation heapTwoBullets hdeckTwoBullets catSmallBody (by decide)).1
      1 (by decide),
   (c6_no_input_mutation heapTwoBullets hdeckTwoBullets catSmallBody (by decide)).2.1
      hslideTwoBullets (by decide),
   (c6_no_input_mutation heapTwoBullets hdeckTwoBullets catSmallBody (by decide)).2.2
      0 hslideTwoBullets _ (by decide) (by rfl)⟩

end PptGen
